import Mathlib

/-!
Verification of the HPKE / Encrypted-ClientHello core of this OpenSSL fork.

The development shallowly embeds the relevant parts of
crypto/hpke.c and ssl/ech.c.  Bytes are modelled as Nat values
(kept below 256 where the source guarantees it), buffers as List Nat,
C strings and nullable buffers as Option (List Nat), and every fallible
C function as a function into Option or Except.  Machine arithmetic that
can wrap (size_t subtraction) is modelled explicitly modulo 2^64.

Cryptographic primitives reached through the EVP layer (hashes, curves,
AEAD ciphers) are not part of the analysed sources; they are modelled
from the specification, with doc comments marking each such definition.
-/

namespace Spec2Proof

/-! ## Byte-level helpers -/

/-- Horner evaluation of a byte list in base B, least significant byte
first.  With B = 256 this is the value of a little-endian buffer; with
B = 257 it is the injective accumulator used by the modelled hash
primitives. -/
def ofB (B : Nat) : List Nat → Nat
  | [] => 0
  | b :: rest => b + B * ofB B rest

/-- Little-endian fixed-width encoding of a value: L bytes, base 256. -/
def encodeBytes : Nat → Nat → List Nat
  | 0, _ => []
  | L + 1, v => v % 256 :: encodeBytes L (v / 256)

/-! ## HPKE suite registry (crypto/hpke.c tables) -/

/-- Ciphersuite triple, as in hpke.h / hpke.c. -/
structure hpke_suite_t where
  kem_id : Nat
  kdf_id : Nat
  aead_id : Nat
  deriving DecidableEq, Repr

/-- Row of the AEAD table.  The C field aead_init_func is a function
pointer that is NULL on sentinel rows; it is modelled as a Bool. -/
structure hpke_aead_info_t where
  aead_id : Nat
  aead_init_func : Bool
  taglen : Nat
  Nk : Nat
  Nn : Nat
  deriving DecidableEq, Repr

/-- Table of AEADs, row for row from hpke.c. -/
def hpke_aead_tab : List hpke_aead_info_t :=
  [ ⟨0, false, 0, 0, 0⟩,
    ⟨0x0001, true, 16, 16, 12⟩,
    ⟨0x0002, true, 16, 32, 12⟩,
    ⟨0x0003, true, 16, 32, 12⟩ ]

/-- Row of the KEM table.  hash_init_func is NULL on sentinel rows and an
EVP digest otherwise; it is modelled as Option Nat carrying the digest
output length (32 for SHA-256, 48 for SHA-384, 64 for SHA-512). -/
structure hpke_kem_info_t where
  kem_id : Nat
  groupid : Nat
  hash_init_func : Option Nat
  Nsecret : Nat
  Nenc : Nat
  Npk : Nat
  Npriv : Nat
  deriving DecidableEq, Repr

/-- Table of KEMs, row for row from hpke.c (sentinel rows keep indexing
aligned with the kem_id value). -/
def hpke_kem_tab : List hpke_kem_info_t :=
  [ ⟨0, 0, none, 0, 0, 0, 0⟩, ⟨1, 0, none, 0, 0, 0, 0⟩,
    ⟨2, 0, none, 0, 0, 0, 0⟩, ⟨3, 0, none, 0, 0, 0, 0⟩,
    ⟨4, 0, none, 0, 0, 0, 0⟩, ⟨5, 0, none, 0, 0, 0, 0⟩,
    ⟨6, 0, none, 0, 0, 0, 0⟩, ⟨7, 0, none, 0, 0, 0, 0⟩,
    ⟨8, 0, none, 0, 0, 0, 0⟩, ⟨9, 0, none, 0, 0, 0, 0⟩,
    ⟨10, 0, none, 0, 0, 0, 0⟩, ⟨11, 0, none, 0, 0, 0, 0⟩,
    ⟨12, 0, none, 0, 0, 0, 0⟩, ⟨13, 0, none, 0, 0, 0, 0⟩,
    ⟨14, 0, none, 0, 0, 0, 0⟩, ⟨15, 0, none, 0, 0, 0, 0⟩,
    ⟨0x0010, 415, some 32, 32, 65, 65, 32⟩,
    ⟨0x0011, 715, some 48, 48, 97, 97, 48⟩,
    ⟨0x0012, 716, some 64, 64, 133, 133, 66⟩,
    ⟨19, 0, none, 0, 0, 0, 0⟩, ⟨20, 0, none, 0, 0, 0, 0⟩,
    ⟨21, 0, none, 0, 0, 0, 0⟩, ⟨22, 0, none, 0, 0, 0, 0⟩,
    ⟨23, 0, none, 0, 0, 0, 0⟩, ⟨24, 0, none, 0, 0, 0, 0⟩,
    ⟨25, 0, none, 0, 0, 0, 0⟩, ⟨26, 0, none, 0, 0, 0, 0⟩,
    ⟨27, 0, none, 0, 0, 0, 0⟩, ⟨28, 0, none, 0, 0, 0, 0⟩,
    ⟨29, 0, none, 0, 0, 0, 0⟩, ⟨30, 0, none, 0, 0, 0, 0⟩,
    ⟨31, 0, none, 0, 0, 0, 0⟩,
    ⟨0x0020, 1034, some 32, 32, 32, 32, 32⟩,
    ⟨0x0021, 1035, some 64, 64, 56, 56, 56⟩,
    ⟨34, 0, none, 0, 0, 0, 0⟩ ]

/-- Row of the KDF table, hash pointer modelled as in the KEM table. -/
structure hpke_kdf_info_t where
  kdf_id : Nat
  hash_init_func : Option Nat
  Nh : Nat
  deriving DecidableEq, Repr

/-- Table of KDFs, row for row from hpke.c. -/
def hpke_kdf_tab : List hpke_kdf_info_t :=
  [ ⟨0, none, 0⟩,
    ⟨0x0001, some 32, 32⟩,
    ⟨0x0002, some 48, 48⟩,
    ⟨0x0003, some 64, 64⟩ ]

/-- Direct indexing hpke_kem_tab[i] as done throughout hpke.c (all uses
are behind a suite or kem-id check, so the default row is never reached
on checked paths). -/
def kemRow (i : Nat) : hpke_kem_info_t := hpke_kem_tab.getD i ⟨0, 0, none, 0, 0, 0, 0⟩

/-- Direct indexing hpke_kdf_tab[i]. -/
def kdfRow (i : Nat) : hpke_kdf_info_t := hpke_kdf_tab.getD i ⟨0, none, 0⟩

/-- Direct indexing hpke_aead_tab[i]. -/
def aeadRow (i : Nat) : hpke_aead_info_t := hpke_aead_tab.getD i ⟨0, false, 0, 0, 0⟩

/-- Translation of hpke_suite_check from hpke.c: linear scan of each
table for a row matching the identifier with a populated algorithm
pointer; returns 1 when all three are found, 0 otherwise. -/
def hpke_suite_check (suite : hpke_suite_t) : Nat :=
  let kem_ok := hpke_kem_tab.any
    (fun row => suite.kem_id == row.kem_id && row.hash_init_func.isSome)
  let kdf_ok := hpke_kdf_tab.any
    (fun row => suite.kdf_id == row.kdf_id && row.hash_init_func.isSome)
  let aead_ok := hpke_aead_tab.any
    (fun row => suite.aead_id == row.aead_id && row.aead_init_func)
  if kem_ok && kdf_ok && aead_ok then 1 else 0

/-- Translation of hpke_kem_id_check from hpke.c (1 on the five known
ids, a line number otherwise; all failure paths are collapsed to 0). -/
def hpke_kem_id_check (kem_id : Nat) : Nat :=
  if kem_id = 0x0010 ∨ kem_id = 0x0011 ∨ kem_id = 0x0012 ∨
      kem_id = 0x0020 ∨ kem_id = 0x0021 then 1 else 0

/-- Translation of hpke_kem_id_nist_curve from hpke.c. -/
def hpke_kem_id_nist_curve (kem_id : Nat) : Nat :=
  if hpke_kem_id_check kem_id ≠ 1 then 0
  else if 0x10 ≤ kem_id ∧ kem_id < 0x20 then 1 else 0

/-! ## Ascii-hex decoding (hpke_ah_decode) -/

/-- Modelled from the spec: the HPKE_A2B ascii-hex nibble decoder is a
macro in the hpke.h header, which is not among the analysed sources;
it maps the code of a hex digit character to its value. -/
def HPKE_A2B (c : Nat) : Nat :=
  if 48 ≤ c ∧ c ≤ 57 then c - 48
  else if 65 ≤ c ∧ c ≤ 70 then c - 65 + 10
  else if 97 ≤ c ∧ c ≤ 102 then c - 97 + 10
  else 0

/-- Translation of hpke_ah_decode from hpke.c, on the character codes of
the input.  Note the guard in the source is written ahlen%1 (always
zero), so the odd-length branch can never reject; for odd input the
final nibble is simply dropped by the integer division ahlen/2. -/
def hpke_ah_decode (ahlen : Nat) (ah : List Nat) : Option (List Nat) :=
  if ahlen ≤ 0 then none
  else if ahlen % 1 ≠ 0 then none
  else
    let lblen := ahlen / 2
    some ((List.range lblen).map (fun i =>
      HPKE_A2B (ah.getD (2 * i) 0) * 16 + HPKE_A2B (ah.getD (2 * i + 1) 0)))

/-! ## AEAD engine -/

/-- Failure causes of the embedded HPKE functions.  The C code returns
distinct line numbers; these constructors name the distinct failure
sites relevant to the analysed claims.  badLength is the error the
specification prescribes for a ciphertext shorter than the tag; the
source has no corresponding check, so no definition below produces it. -/
inductive HpkeErr where
  | badTag
  | badLength
  | oobRead
  | overflow
  | suiteErr
  | modeErr
  | pskErr
  | nullPtr
  | kemFail
  | buffer
  | lenCheck
  deriving DecidableEq, Repr

/-- Modelled from the spec: one keystream byte of the AEAD cipher (the
EVP cipher implementations are not among the analysed sources).  The
stream depends on key, nonce and position, and each byte is invertible
by subtraction modulo 256. -/
def aeadKS (key iv : List Nat) (i : Nat) : Nat :=
  (ofB 256 key + ofB 256 iv + i) % 256

/-- Modelled from the spec: the authentication tag value.  Seal appends
a 16-octet tag binding key, aad and ciphertext body; open recomputes and
compares it, failing with AEAD_BAD_TAG on mismatch.  The accumulator is
position-injective so that any single-byte change of aad or body, and
any change of the (derived) key value modulo 2^128, alters the tag. -/
def aeadTagVal (key aad body : List Nat) : Nat :=
  (ofB 256 key + ofB 257 (encodeBytes 2 aad.length ++ aad ++ body)) % 2 ^ 128

/-- Modelled from the spec: the encrypted body bytes of the AEAD. -/
def aeadEncBody (key iv clear : List Nat) : List Nat :=
  (List.range clear.length).map (fun i => (clear.getD i 0 + aeadKS key iv i) % 256)

/-- Modelled from the spec: body decryption, inverse of aeadEncBody. -/
def aeadDecBody (key iv body : List Nat) : List Nat :=
  (List.range body.length).map
    (fun i => (body.getD i 0 + 256 - aeadKS key iv i) % 256)

/-- Wrap-around modulus of the C type size_t. -/
def SIZE_T_MOD : Nat := 2 ^ 64

/-- Translation of hpke_aead_enc from hpke.c: capacity check, EVP
encrypt (modelled), tag appended to the ciphertext. -/
def hpke_aead_enc (suite : hpke_suite_t) (key iv aad clear : List Nat)
    (cipher_cap : Nat) : Except HpkeErr (List Nat) :=
  let taglen := (aeadRow suite.aead_id).taglen
  if taglen + clear.length > cipher_cap then .error .buffer
  else if (aeadRow suite.aead_id).aead_init_func = false then .error .suiteErr
  else
    let body := aeadEncBody key iv clear
    .ok (body ++ encodeBytes taglen (aeadTagVal key aad body))

/-- Translation of hpke_aead_dec from hpke.c.  The source passes
cipherlen-taglen to EVP_DecryptUpdate with no length guard; for a
ciphertext shorter than the tag the size_t subtraction wraps around and
the call reads far out of bounds, modelled as the oobRead error. -/
def hpke_aead_dec (suite : hpke_suite_t) (key iv aad cipher : List Nat)
    (plain_cap : Nat) : Except HpkeErr (List Nat) :=
  let taglen := (aeadRow suite.aead_id).taglen
  if (aeadRow suite.aead_id).aead_init_func = false then .error .suiteErr
  else
    let n := (cipher.length + SIZE_T_MOD - taglen) % SIZE_T_MOD
    if n > cipher.length then .error .oobRead
    else
      let body := List.take n cipher
      let tagbytes := List.drop n cipher
      if tagbytes ≠ encodeBytes taglen (aeadTagVal key aad body) then .error .badTag
      else
        let plain := aeadDecBody key iv body
        if plain.length > plain_cap then .error .buffer
        else .ok plain

/-! ## HPKE single-shot pipeline (hpke_enc / hpke_dec and helpers) -/

/-- Maximum internal buffer size in hpke.c. -/
def HPKE_MAXSIZE : Nat := 1024

/-- HPKE modes, as in hpke.h. -/
def HPKE_MODE_BASE : Nat := 0

def HPKE_MODE_PSK : Nat := 1

def HPKE_MODE_AUTH : Nat := 2

def HPKE_MODE_PSKAUTH : Nat := 3

/-- RFC5869 labelling modes of hpke_extract / hpke_expand. -/
def HPKE_5869_MODE_PURE : Nat := 0

def HPKE_5869_MODE_KEM : Nat := 1

def HPKE_5869_MODE_FULL : Nat := 2

/-- "HPKE-06": the version label (DRAFT_06 is the active configuration
at the top of hpke.c). -/
def HPKE_VERLABEL : List Nat := [72, 80, 75, 69, 45, 48, 54]

/-- "KEM": the section 4.1 suite_id label. -/
def HPKE_SEC41LABEL : List Nat := [75, 69, 77]

/-- "HPKE": the section 5.1 suite_id label. -/
def HPKE_SEC51LABEL : List Nat := [72, 80, 75, 69]

/-- "eae_prk". -/
def HPKE_EAE_PRK_LABEL : List Nat := [101, 97, 101, 95, 112, 114, 107]

/-- "shared_secret". -/
def HPKE_SS_LABEL : List Nat :=
  [115, 104, 97, 114, 101, 100, 95, 115, 101, 99, 114, 101, 116]

/-- "psk_id_hash". -/
def HPKE_PSKIDHASH_LABEL : List Nat :=
  [112, 115, 107, 95, 105, 100, 95, 104, 97, 115, 104]

/-- "info_hash". -/
def HPKE_INFOHASH_LABEL : List Nat := [105, 110, 102, 111, 95, 104, 97, 115, 104]

/-- "base_nonce" (the DRAFT_06 nonce label). -/
def HPKE_NONCE_LABEL : List Nat := [98, 97, 115, 101, 95, 110, 111, 110, 99, 101]

/-- "exp". -/
def HPKE_EXP_LABEL : List Nat := [101, 120, 112]

/-- "key". -/
def HPKE_KEY_LABEL : List Nat := [107, 101, 121]

/-- "psk_hash". -/
def HPKE_PSK_HASH_LABEL : List Nat := [112, 115, 107, 95, 104, 97, 115, 104]

/-- "secret". -/
def HPKE_SECRET_LABEL : List Nat := [115, 101, 99, 114, 101, 116]

/-- Big-endian 2-octet encoding used for the suite identifiers inside
labelled buffers (labeled_ikm[off]=(id/256)%256; labeled_ikm[off+1]=id%256). -/
def u16be (v : Nat) : List Nat := [v / 256 % 256, v % 256]

/-- Translation of hpke_mode_check from hpke.c (the C function returns a
line number on failure; every failure is collapsed to 0). -/
def hpke_mode_check (mode : Nat) : Nat :=
  if mode = HPKE_MODE_BASE ∨ mode = HPKE_MODE_PSK ∨
      mode = HPKE_MODE_AUTH ∨ mode = HPKE_MODE_PSKAUTH then 1 else 0

/-- Translation of hpke_psk_check from hpke.c.  The C pointers pskid and
psk are modelled as Option (List Nat) with none for NULL; note the source
only tests the pointers against NULL and psklen against 0 — an empty
pskid string (some []) passes. -/
def hpke_psk_check (mode : Nat) (pskid : Option (List Nat)) (psklen : Nat)
    (psk : Option (List Nat)) : Nat :=
  if mode = HPKE_MODE_BASE ∨ mode = HPKE_MODE_AUTH then 1
  else if pskid = none then 0
  else if psklen = 0 then 0
  else if psk = none then 0
  else 1

/-- Modelled from the spec: the digest length of the EVP message digest
selected by hpke_extract / hpke_expand (the kem-table hash for
HPKE_5869_MODE_KEM, the kdf-table hash otherwise); the hash_init_func
table fields carry exactly this length. -/
def mdSize (suite : hpke_suite_t) (mode5869 : Nat) : Option Nat :=
  if mode5869 = HPKE_5869_MODE_KEM then (kemRow suite.kem_id).hash_init_func
  else (kdfRow suite.kdf_id).hash_init_func

/-- Modelled from the spec: the value extracted by the EVP HKDF-Extract
step on a salt and a (labelled) keying-material buffer, as an Nh-octet
quantity.  The model is additive in the little-endian values of the two
buffers, so it is injective in either argument while the other is fixed,
as an ideal extraction step is for the inputs arising here. -/
def extractVal (Nh : Nat) (salt lab : List Nat) : Nat :=
  (ofB 256 salt + ofB 256 lab) % 2 ^ (8 * Nh)

/-- Modelled from the spec: the value expanded by the EVP HKDF-Expand
step from a pseudo-random key and a labelled info buffer, as an L-octet
quantity.  The prk enters with weight 2 and the info buffer through the
position-injective base-257 accumulator, so a change of either alone,
and a change of prk of small 2-adic valuation together with a one-octet
change of the info buffer, always alters the value. -/
def expandVal (L : Nat) (prk lab : List Nat) : Nat :=
  (2 * ofB 256 prk + ofB 257 lab) % 2 ^ (8 * L)

/-- The FULL-mode labelled ikm buffer of hpke_extract. -/
def fullLabIkm (suite : hpke_suite_t) (label ikm : List Nat) : List Nat :=
  HPKE_VERLABEL ++ HPKE_SEC51LABEL ++ u16be suite.kem_id ++
    u16be suite.kdf_id ++ u16be suite.aead_id ++ label ++ ikm

/-- The KEM-mode labelled ikm buffer of hpke_extract. -/
def kemLabIkm (suite : hpke_suite_t) (label ikm : List Nat) : List Nat :=
  HPKE_VERLABEL ++ HPKE_SEC41LABEL ++ u16be suite.kem_id ++ label ++ ikm

/-- The FULL-mode labelled info buffer of hpke_expand. -/
def fullLabInfo (suite : hpke_suite_t) (L : Nat) (label info : List Nat) :
    List Nat :=
  u16be L ++ fullLabIkm suite label info

/-- The KEM-mode labelled info buffer of hpke_expand. -/
def kemLabInfo (suite : hpke_suite_t) (L : Nat) (label info : List Nat) :
    List Nat :=
  u16be L ++ kemLabIkm suite label info

/-- The labelled-ikm buffer built at the top of hpke_extract.  The
source checks concat_offset against HPKE_MAXSIZE after every append;
the offsets are monotone, so the net effect is a single check of the
final length, kept in hpke_extract below. -/
def extractLab (suite : hpke_suite_t) (mode5869 : Nat) (label ikm : List Nat) :
    Option (List Nat) :=
  if mode5869 = HPKE_5869_MODE_PURE then some ikm
  else if mode5869 = HPKE_5869_MODE_KEM then some (kemLabIkm suite label ikm)
  else if mode5869 = HPKE_5869_MODE_FULL then some (fullLabIkm suite label ikm)
  else none

/-- Translation of hpke_extract from hpke.c: labelled-ikm construction
(with the HPKE_MAXSIZE overflow checks), digest selection (KEM-mode uses
the kem table hash, otherwise the kdf table hash; a NULL hash pointer
fails), and the modelled extract-only HKDF derivation; the output is
the digest-sized encoding of extractVal and the final lsecretlen check
against the caller's buffer size is the Nh ≤ cap test. -/
def hpke_extract (suite : hpke_suite_t) (mode5869 : Nat)
    (salt label ikm : List Nat) (cap : Nat) : Except HpkeErr (List Nat) :=
  match extractLab suite mode5869 label ikm with
  | none => .error .overflow
  | some lab =>
    if mode5869 ≠ HPKE_5869_MODE_PURE ∧ lab.length ≥ HPKE_MAXSIZE then .error .overflow
    else match mdSize suite mode5869 with
      | none => .error .suiteErr
      | some Nh =>
        if Nh > cap then .error .buffer
        else .ok (encodeBytes Nh (extractVal Nh salt lab))

/-- The labelled-info buffer built at the top of hpke_expand: two
big-endian octets of L, then the version and suite_id labels, then the
caller's label and info (no L prefix in PURE mode).  As in extractLab
the per-append overflow checks collapse to one final check. -/
def expandLab (suite : hpke_suite_t) (mode5869 : Nat) (L : Nat)
    (label info : List Nat) : Option (List Nat) :=
  if mode5869 = HPKE_5869_MODE_PURE then some (label ++ info)
  else if mode5869 = HPKE_5869_MODE_KEM then some (kemLabInfo suite L label info)
  else if mode5869 = HPKE_5869_MODE_FULL then some (fullLabInfo suite L label info)
  else none

/-- Translation of hpke_expand from hpke.c.  The EVP derivation writes
*outlen octets (the L parameter only enters the labelled buffer), so the
output is the cap-sized encoding of expandVal. -/
def hpke_expand (suite : hpke_suite_t) (mode5869 : Nat)
    (prk label info : List Nat) (L : Nat) (cap : Nat) : Except HpkeErr (List Nat) :=
  match expandLab suite mode5869 L label info with
  | none => .error .overflow
  | some lab =>
    if lab.length ≥ HPKE_MAXSIZE then .error .overflow
    else match mdSize suite mode5869 with
      | none => .error .suiteErr
      | some _ => .ok (encodeBytes cap (expandVal cap prk lab))

/-- Translation of hpke_extract_and_expand from hpke.c: extract with an
empty salt and the eae_prk label, then expand with the shared_secret
label to the kem table's Nsecret octets. -/
def hpke_extract_and_expand (suite : hpke_suite_t) (mode5869 : Nat)
    (zz context : List Nat) : Except HpkeErr (List Nat) :=
  (hpke_extract suite mode5869 [] HPKE_EAE_PRK_LABEL zz HPKE_MAXSIZE).bind
    (fun eae_prk =>
      hpke_expand suite mode5869 eae_prk HPKE_SS_LABEL context
        (kemRow suite.kem_id).Nsecret (kemRow suite.kem_id).Nsecret)

/-- Modelled from the spec: the Diffie-Hellman group behind the EVP key
types.  Scalars act through the odd multiplier 2·sk+1 on the group
Z/2^96 with generator 9, giving the commutativity pub/derive needs and
keeping derive injective in the peer's element for every scalar. -/
def DH_MOD : Nat := 2 ^ 96

/-- Modelled from the spec: the public group element of a scalar. -/
def dhPub (sk : Nat) : Nat := (2 * sk + 1) * 9 % DH_MOD

/-- Modelled from the spec: the EVP_PKEY_derive shared value of a
private scalar and a peer public element. -/
def dhDerive (sk pk : Nat) : Nat := (2 * sk + 1) * pk % DH_MOD

/-- Translation of hpke_do_kem from hpke.c.  key1 is the private scalar
of the local key, key2 the peer's public element, key1enc/key2enc their
encoded forms as passed by the callers.  akey is the auth key: the
private scalar skI when encrypting, the public element pkI when
decrypting, exactly as the source uses the corresponding EVP_PKEY on
each side; apub is the encoded auth public key.  The derive outputs are
the kem table's Npriv octets of the modelled shared value. -/
def hpke_do_kem (encrypting : Bool) (suite : hpke_suite_t)
    (key1 : Nat) (key1enc : List Nat) (key2 : Nat) (key2enc : List Nat)
    (akey : Option Nat) (apub : List Nat) : Except HpkeErr (List Nat) :=
  let zzB := encodeBytes (kemRow suite.kem_id).Npriv (dhDerive key1 key2)
  if zzB.length ≥ HPKE_MAXSIZE then .error .overflow
  else if key1enc.length + key2enc.length ≥ HPKE_MAXSIZE then .error .overflow
  else
    let kc0 := if encrypting then key1enc ++ key2enc else key2enc ++ key1enc
    if apub.length ≠ 0 ∧ kc0.length + apub.length ≥ HPKE_MAXSIZE then .error .overflow
    else
      let kem_context := if apub.length ≠ 0 then kc0 ++ apub else kc0
      match akey with
      | none => hpke_extract_and_expand suite HPKE_5869_MODE_KEM zzB kem_context
      | some a =>
        let zz2 := encodeBytes (kemRow suite.kem_id).Npriv
          (if encrypting then dhDerive a key2 else dhDerive key1 a)
        if zz2.length ≥ HPKE_MAXSIZE then .error .overflow
        else hpke_extract_and_expand suite HPKE_5869_MODE_KEM (zzB ++ zz2) kem_context

/-- The ks_context buffer shared by hpke_enc and hpke_dec: one octet of
mode, then the psk_id_hash extract, then the info_hash extract (the
halflen bookkeeping of the source amounts to capping the first digest at
HPKE_MAXSIZE−1 and the second at what remains).  Note pskidlen is
strlen(pskid) only when psk is non-NULL, so a NULL psk empties the
pskid input. -/
def hpke_ks_context (suite : hpke_suite_t) (mode : Nat)
    (pskid psk : Option (List Nat)) (info : List Nat) :
    Except HpkeErr (List Nat) :=
  (hpke_extract suite HPKE_5869_MODE_FULL [] HPKE_PSKIDHASH_LABEL
      (if psk = none then [] else pskid.getD []) (HPKE_MAXSIZE - 1)).bind
    (fun d1 =>
      (hpke_extract suite HPKE_5869_MODE_FULL [] HPKE_INFOHASH_LABEL info
          (HPKE_MAXSIZE - 1 - d1.length)).bind
        (fun d2 => .ok (mode % 256 :: (d1 ++ d2))))

/-- The draft-06 secret derivation and the nonce/key/exporter expands
shared verbatim by hpke_enc and hpke_dec (steps 4 of both): the unused
psk_hash extract, the secret extract with the shared secret as salt and
the psk as ikm, then base_nonce, key, exp and a repeated base_nonce
expand, with the noncelen==12 checks.  Returns (nonce, key). -/
def hpke_schedule (suite : hpke_suite_t) (ss : List Nat)
    (psk : Option (List Nat)) (ks_context : List Nat) :
    Except HpkeErr (List Nat × List Nat) :=
  (hpke_extract suite HPKE_5869_MODE_FULL [] HPKE_PSK_HASH_LABEL (psk.getD [])
      HPKE_MAXSIZE).bind
    (fun _ =>
      if (kdfRow suite.kdf_id).Nh > 64 then .error .overflow
      else
        (hpke_extract suite HPKE_5869_MODE_FULL ss HPKE_SECRET_LABEL (psk.getD [])
            (kdfRow suite.kdf_id).Nh).bind
          (fun secret =>
            (hpke_expand suite HPKE_5869_MODE_FULL secret HPKE_NONCE_LABEL
                ks_context (aeadRow suite.aead_id).Nn (aeadRow suite.aead_id).Nn).bind
              (fun nonce =>
                if nonce.length ≠ 12 then .error .lenCheck
                else
                  (hpke_expand suite HPKE_5869_MODE_FULL secret HPKE_KEY_LABEL
                      ks_context (aeadRow suite.aead_id).Nk
                      (aeadRow suite.aead_id).Nk).bind
                    (fun key =>
                      (hpke_expand suite HPKE_5869_MODE_FULL secret HPKE_EXP_LABEL
                          ks_context (kdfRow suite.kdf_id).Nh
                          (kdfRow suite.kdf_id).Nh).bind
                        (fun _ =>
                          (hpke_expand suite HPKE_5869_MODE_FULL secret
                              HPKE_NONCE_LABEL ks_context
                              (aeadRow suite.aead_id).Nn
                              (aeadRow suite.aead_id).Nn).bind
                            (fun nonce2 =>
                              if nonce2.length ≠ 12 then .error .lenCheck
                              else .ok (nonce2, key)))))))

/-- Translation of hpke_enc from hpke.c (single-shot seal).  The
ephemeral key pair the source generates with EVP_PKEY_keygen is the
explicit scalar skE; pskid and psk are Option with none for NULL; the
output buffer capacities senderpubCap and cipherCap stand for
*senderpublen and *cipherlen.  The raw private-key import succeeds when
privlen matches the kem table's Npriv and the PEM fallback is modelled
as failing.  Returns (senderpub, cipher). -/
def hpke_enc (mode : Nat) (suite : hpke_suite_t)
    (pskid : Option (List Nat)) (psklen : Nat) (psk : Option (List Nat))
    (pub priv clear aad info : List Nat) (skE : Nat)
    (senderpubCap cipherCap : Nat) : Except HpkeErr (List Nat × List Nat) :=
  if hpke_mode_check mode ≠ 1 then .error .modeErr
  else if hpke_psk_check mode pskid psklen psk ≠ 1 then .error .pskErr
  else if hpke_suite_check suite ≠ 1 then .error .suiteErr
  else if (mode = HPKE_MODE_AUTH ∨ mode = HPKE_MODE_PSKAUTH) ∧ priv.length = 0 then
    .error .nullPtr
  else if (mode = HPKE_MODE_PSK ∨ mode = HPKE_MODE_PSKAUTH) ∧
      (psk = none ∨ psklen = 0 ∨ pskid = none) then .error .nullPtr
  else
    let enc := encodeBytes (kemRow suite.kem_id).Npk (dhPub skE)
    if enc.length = 0 then .error .kemFail
    else
      (if mode = HPKE_MODE_AUTH ∨ mode = HPKE_MODE_PSKAUTH then
        if (kemRow suite.kem_id).Npriv = priv.length then
          .ok (some (ofB 256 priv))
        else (.error .kemFail : Except HpkeErr (Option Nat))
      else .ok none).bind
      (fun skI =>
        (hpke_do_kem true suite skE enc (ofB 256 pub) pub skI
            (match skI with
              | none => []
              | some a => encodeBytes (kemRow suite.kem_id).Npk (dhPub a))).bind
          (fun ss =>
            (hpke_ks_context suite mode pskid psk info).bind
              (fun ks_context =>
                (hpke_schedule suite ss psk ks_context).bind
                  (fun nk =>
                    (hpke_aead_enc suite nk.2 nk.1 aad clear HPKE_MAXSIZE).bind
                      (fun lcipher =>
                        if lcipher.length > cipherCap then .error .lenCheck
                        else if enc.length > senderpubCap then .error .lenCheck
                        else .ok (enc, lcipher))))))

/-- Translation of hpke_dec from hpke.c (single-shot open).  evppriv is
the optional pre-loaded private scalar; priv the raw private key octets
(the PEM fallback is modelled as failing); clearCap stands for
*clearlen. -/
def hpke_dec (mode : Nat) (suite : hpke_suite_t)
    (pskid : Option (List Nat)) (psklen : Nat) (psk : Option (List Nat))
    (pub priv : List Nat) (evppriv : Option Nat)
    (enc cipher aad info : List Nat) (clearCap : Nat) :
    Except HpkeErr (List Nat) :=
  if hpke_mode_check mode ≠ 1 then .error .modeErr
  else if hpke_psk_check mode pskid psklen psk ≠ 1 then .error .pskErr
  else if hpke_suite_check suite ≠ 1 then .error .suiteErr
  else if priv.length = 0 ∧ evppriv = none then .error .nullPtr
  else if (mode = HPKE_MODE_AUTH ∨ mode = HPKE_MODE_PSKAUTH) ∧ pub.length = 0 then
    .error .nullPtr
  else if (mode = HPKE_MODE_PSK ∨ mode = HPKE_MODE_PSKAUTH) ∧
      (psk = none ∨ psklen = 0 ∨ pskid = none) then .error .nullPtr
  else
    (match evppriv with
      | some v => (.ok v : Except HpkeErr Nat)
      | none =>
        if (kemRow suite.kem_id).Npriv = priv.length then .ok (ofB 256 priv)
        else .error .kemFail).bind
    (fun skR =>
      let mypub := encodeBytes (kemRow suite.kem_id).Npk (dhPub skR)
      if mypub.length = 0 then .error .kemFail
      else
        (hpke_do_kem false suite skR mypub (ofB 256 enc) enc
            (if pub.length ≠ 0 then some (ofB 256 pub) else none) pub).bind
          (fun ss =>
            (hpke_ks_context suite mode pskid psk info).bind
              (fun ks_context =>
                (hpke_schedule suite ss psk ks_context).bind
                  (fun nk =>
                    (hpke_aead_dec suite nk.2 nk.1 aad cipher HPKE_MAXSIZE).bind
                      (fun lclear =>
                        if lclear.length > clearCap then .error .lenCheck
                        else .ok lclear)))))

/-- Closed form of the eae_prk value derived inside
hpke_extract_and_expand (the kem hash length equals Nsecret on every
populated row). -/
def eaePrkVal (suite : hpke_suite_t) (zz : List Nat) : Nat :=
  extractVal (kemRow suite.kem_id).Nsecret []
    (kemLabIkm suite HPKE_EAE_PRK_LABEL zz)

/-- Closed form of the shared-secret value produced by
hpke_extract_and_expand. -/
def ssVal (suite : hpke_suite_t) (zz kem_context : List Nat) : Nat :=
  expandVal (kemRow suite.kem_id).Nsecret
    (encodeBytes (kemRow suite.kem_id).Nsecret (eaePrkVal suite zz))
    (kemLabInfo suite (kemRow suite.kem_id).Nsecret HPKE_SS_LABEL kem_context)

/-- Closed form of the draft-06 secret value of hpke_enc / hpke_dec
step 4. -/
def secretVal (suite : hpke_suite_t) (ss pskb : List Nat) : Nat :=
  extractVal (kdfRow suite.kdf_id).Nh ss
    (fullLabIkm suite HPKE_SECRET_LABEL pskb)

/-- The secret as a byte buffer. -/
def secretB (suite : hpke_suite_t) (ss : List Nat) (psk : Option (List Nat)) :
    List Nat :=
  encodeBytes (kdfRow suite.kdf_id).Nh (secretVal suite ss (psk.getD []))

/-- Closed form of the AEAD key value. -/
def keyVal (suite : hpke_suite_t) (sec ks_context : List Nat) : Nat :=
  expandVal (aeadRow suite.aead_id).Nk sec
    (fullLabInfo suite (aeadRow suite.aead_id).Nk HPKE_KEY_LABEL ks_context)

/-- Closed form of the AEAD nonce value. -/
def nonceVal (suite : hpke_suite_t) (sec ks_context : List Nat) : Nat :=
  expandVal (aeadRow suite.aead_id).Nn sec
    (fullLabInfo suite (aeadRow suite.aead_id).Nn HPKE_NONCE_LABEL ks_context)

/-- Closed form of the ks_context buffer. -/
def ksCtxB (suite : hpke_suite_t) (mode : Nat) (pskid psk : Option (List Nat))
    (info : List Nat) : List Nat :=
  mode % 256 ::
    (encodeBytes (kdfRow suite.kdf_id).Nh
      (extractVal (kdfRow suite.kdf_id).Nh []
        (fullLabIkm suite HPKE_PSKIDHASH_LABEL
          (if psk = none then [] else pskid.getD []))) ++
     encodeBytes (kdfRow suite.kdf_id).Nh
      (extractVal (kdfRow suite.kdf_id).Nh []
        (fullLabIkm suite HPKE_INFOHASH_LABEL info)))

/-- The derived (nonce, key) buffer pair of the base-mode key schedule,
as a function of the shared DH value, the kem_context and the
ks_context inputs; both hpke_enc and hpke_dec reduce to this form. -/
def deriveNK (suite : hpke_suite_t) (mode : Nat) (pskid psk : Option (List Nat))
    (info : List Nat) (zzv : Nat) (kem_context : List Nat) :
    List Nat × List Nat :=
  (encodeBytes (aeadRow suite.aead_id).Nn
    (nonceVal suite
      (secretB suite
        (encodeBytes (kemRow suite.kem_id).Nsecret
          (ssVal suite (encodeBytes (kemRow suite.kem_id).Npriv zzv) kem_context))
        psk)
      (ksCtxB suite mode pskid psk info)),
   encodeBytes (aeadRow suite.aead_id).Nk
    (keyVal suite
      (secretB suite
        (encodeBytes (kemRow suite.kem_id).Nsecret
          (ssVal suite (encodeBytes (kemRow suite.kem_id).Npriv zzv) kem_context))
        psk)
      (ksCtxB suite mode pskid psk info)))

/-! ## PACKET reader (OpenSSL packet_local.h semantics) -/

/-- Modelled from the spec: the OpenSSL PACKET reader used by the binary
parse in ssl/ech.c (ssl/packet_local.h is not among the analysed
sources).  A packet is the not-yet-consumed byte suffix of the input. -/
structure Pkt where
  data : List Nat
  deriving DecidableEq, Repr

/-- Modelled from the spec: PACKET_remaining. -/
def Pkt.remaining (p : Pkt) : Nat := p.data.length

/-- Modelled from the spec: PACKET_get_net_2 reads a 16-bit big-endian
value, failing if fewer than two octets remain. -/
def Pkt.getNet2 (p : Pkt) : Option (Nat × Pkt) :=
  if 2 ≤ p.data.length
  then some (p.data.getD 0 0 * 256 + p.data.getD 1 0, ⟨p.data.drop 2⟩)
  else none

/-- Modelled from the spec: PACKET_copy_bytes consumes and returns
exactly n octets, failing if fewer remain. -/
def Pkt.copyBytes (p : Pkt) (n : Nat) : Option (List Nat × Pkt) :=
  if n ≤ p.data.length then some (p.data.take n, ⟨p.data.drop n⟩) else none

/-- Modelled from the spec: PACKET_get_length_prefixed_2 reads a
16-bit length then splits off a sub-packet of that many octets. -/
def Pkt.getLenPrefixed2 (p : Pkt) : Option (Pkt × Pkt) :=
  (p.getNet2).bind (fun lp =>
    if lp.1 ≤ lp.2.data.length
    then some (⟨lp.2.data.take lp.1⟩, ⟨lp.2.data.drop lp.1⟩)
    else none)


/-! ## ECHConfig parsing (ssl/ech.c) -/

/-- Length sanity bounds from ssl/ech_local.h. -/
def ECH_MIN_ECHCONFIG_LEN : Nat := 32

/-- Upper length ceiling from ssl/ech_local.h. -/
def ECH_MAX_ECHCONFIG_LEN : Nat := 512

/-- Length of one ECHCipher entry, from ssl/ech_local.h. -/
def ECH_CIPHER_LEN : Nat := 4

/-- Compression bound from ssl/ech_local.h. -/
def ECH_OUTERS_MAX : Nat := 10

/-- Modelled from the spec: the accepted ECHConfig version 0xff09
(draft-09); the macro lives in the public ech.h header, which is not
among the analysed sources. -/
def ECH_DRAFT_09_VERSION : Nat := 0xff09

/-- Modelled from the spec: the maximum host name length 255 used for
the public_name bound (TLSEXT_MAXLEN_host_name, from a header outside
the analysed sources; the spec gives 255). -/
def TLSEXT_MAXLEN_host_name : Nat := 255

/-- Modelled from the spec: the cap on an added RR value, from the
public ech.h header which is not among the analysed sources; the exact
value is immaterial to the claims, which treat it symbolically. -/
def ECH_MAX_RRVALUE_LEN : Nat := 2000

/-- Wrap-around modulus of the C type unsigned int. -/
def UINT_MOD : Nat := 2 ^ 32

/-- One parsed ECHConfig record (struct ech_config_st); the three
parallel extension arrays are modelled as one list of pairs. -/
structure ECHConfig where
  version : Nat
  public_name : List Nat
  kem_id : Nat
  pub : List Nat
  ciphersuites : List (List Nat)
  maximum_name_length : Nat
  exts : List (Nat × List Nat)
  config_id : List Nat
  deriving DecidableEq, Repr

/-- Parsed list of records plus the original encoding
(struct ech_configs_st). -/
structure ECHConfigs where
  encoded : List Nat
  recs : List ECHConfig
  deriving DecidableEq, Repr

/-- Translation of the extension-reading while loop inside
ECHConfigs_from_binary (one step per extension; each step consumes at
least four octets, so the packet length is a variant). -/
def echExtLoop (fuel : Nat) (exts : Pkt) (acc : List (Nat × List Nat)) :
    Option (List (Nat × List Nat)) :=
  match fuel with
  | 0 => none
  | fuel + 1 =>
    if exts.remaining = 0 then some acc
    else
      (exts.getNet2).bind (fun tp =>
        -- the source checks extlen>=ECH_MAX_RRVALUE_LEN before reading
        -- extlen, while the variable still holds its initialiser 0, so
        -- the check can never fire; kept verbatim
        if (0 : Nat) ≥ ECH_MAX_RRVALUE_LEN then none
        else
          (tp.2.getNet2).bind (fun lp =>
            if lp.1 ≠ 0 then
              (lp.2.copyBytes lp.1).bind (fun vp =>
                echExtLoop fuel vp.2 (acc ++ [(tp.1, vp.1)]))
            else echExtLoop fuel lp.2 (acc ++ [(tp.1, [])])))

/-- Translation of the ciphersuite-copying while loop inside
ECHConfigs_from_binary: copy 4-octet entries while at least four octets
remain, then fail if a partial entry is left over. -/
def echSuiteLoop (fuel : Nat) (p : Pkt) (acc : List (List Nat)) :
    Option (List (List Nat)) :=
  match fuel with
  | 0 => none
  | fuel + 1 =>
    if ECH_CIPHER_LEN ≤ p.remaining then
      echSuiteLoop fuel ⟨p.data.drop ECH_CIPHER_LEN⟩ (acc ++ [p.data.take ECH_CIPHER_LEN])
    else if p.remaining > 0 then none else some acc

/-- Translation of the body of the main record loop for a version-0xff09
record: public_name, public key, kem id, ciphersuites, maximum name
length and extensions, with the checks of the source in order. -/
def echParseBody (pkt : Pkt) : Option (ECHConfig × Pkt) :=
  (pkt.getLenPrefixed2).bind (fun pnp =>
    if pnp.1.remaining ≤ 1 ∨ pnp.1.remaining > TLSEXT_MAXLEN_host_name then none
    else
      (pnp.2.getLenPrefixed2).bind (fun pubp =>
        (pubp.2.getNet2).bind (fun kemp =>
          (kemp.2.getLenPrefixed2).bind (fun csp =>
            -- suiteoctets%1 in the source is always 0, so only the
            -- emptiness test of this guard is effective
            if csp.1.remaining ≤ 0 ∨ csp.1.remaining % 1 ≠ 0 then none
            else
              (echSuiteLoop (csp.1.remaining + 1) csp.1 []).bind (fun suites =>
                (csp.2.getNet2).bind (fun mnp =>
                  (mnp.2.getLenPrefixed2).bind (fun extp =>
                    (echExtLoop (extp.1.remaining + 1) extp.1 []).bind (fun exts =>
                      some (⟨ECH_DRAFT_09_VERSION, pnp.1.data, kemp.1,
                             pubp.1.data, suites, mnp.1, exts, []⟩,
                            extp.2)))))))))

/-- Translation of the main while loop of ECHConfigs_from_binary.  The
loop guard compares the local variable remaining against not_to_consume;
on the skip path for an unknown version the source executes continue
without refreshing remaining after consuming the record body, so the
guard is evaluated with the stale value read just after the record
header. -/
def echParseLoop (fuel : Nat) (pkt : Pkt) (te : List ECHConfig)
    (remaining not_to_consume : Nat) : Option (List ECHConfig × Pkt) :=
  match fuel with
  | 0 => none
  | fuel + 1 =>
    if ¬ remaining > not_to_consume then some (te, pkt)
    else
      (pkt.getNet2).bind (fun verp =>
        (verp.2.getNet2).bind (fun clp =>
          if (clp.1 + UINT_MOD - 2) % UINT_MOD > clp.2.remaining then none
          else if verp.1 ≠ ECH_DRAFT_09_VERSION then
            (clp.2.copyBytes clp.1).bind (fun skip =>
              echParseLoop fuel skip.2 te clp.2.remaining not_to_consume)
          else
            (echParseBody clp.2).bind (fun ecp =>
              echParseLoop fuel ecp.2 (te ++ [ecp.1]) ecp.2.remaining
                not_to_consume)))

/-- Translation of ECHConfigs_from_binary from ssl/ech.c: length sanity
checks, outer length field, record loop, and leftover computation.  On
success it returns the ECHConfigs and the number of unconsumed octets. -/
def ECHConfigs_from_binary (binbuf : List Nat) : Option (ECHConfigs × Nat) :=
  let binblen := binbuf.length
  if binblen < ECH_MIN_ECHCONFIG_LEN then none
  else if binblen ≥ ECH_MAX_ECHCONFIG_LEN then none
  else
    ((⟨binbuf⟩ : Pkt).getNet2).bind (fun op =>
      if op.1 < ECH_MIN_ECHCONFIG_LEN ∨ op.1 > binblen - 2 then none
      else
        -- fuel: the loop consumes at least four octets per iteration and
        -- binblen is below the ECH_MAX_ECHCONFIG_LEN ceiling, so the
        -- ceiling itself over-approximates the iteration count
        (echParseLoop ECH_MAX_ECHCONFIG_LEN op.2 [] op.2.remaining
            (binblen - op.1)).bind (fun tp =>
          if tp.2.remaining > binblen then none
          else some (⟨binbuf, tp.1⟩, tp.2.remaining)))

/-! ## ECHConfig ingestion (local_ech_add, SSL_ech_add, SSL_CTX_ech_add) -/

/-- Modelled from the spec: format selector values from the public ech.h
header, which is not among the analysed sources; only distinctness of
the values matters. -/
def ECH_FMT_GUESS : Nat := 0

/-- Modelled from the spec: see ECH_FMT_GUESS. -/
def ECH_FMT_BIN : Nat := 1

/-- Modelled from the spec: see ECH_FMT_GUESS. -/
def ECH_FMT_ASCIIHEX : Nat := 2

/-- Modelled from the spec: see ECH_FMT_GUESS. -/
def ECH_FMT_B64TXT : Nat := 3

/-- Modelled from the spec: see ECH_FMT_GUESS. -/
def ECH_FMT_HTTPSSVC : Nat := 4

/-- Character codes of the AH_alphabet string of ssl/ech.c
(hex digits of both cases plus the semi-colon separator). -/
def AH_alphabet : List Nat :=
  [48, 49, 50, 51, 52, 53, 54, 55, 56, 57,
   65, 66, 67, 68, 69, 70, 97, 98, 99, 100, 101, 102, 59]

/-- Character codes of the B64_alphabet string of ssl/ech.c. -/
def B64_alphabet : List Nat :=
  (List.range 26).map (fun i => 65 + i) ++ (List.range 26).map (fun i => 97 + i) ++
  (List.range 10).map (fun i => 48 + i) ++ [43, 47, 61, 59]

/-- Character codes of the httpssvc_telltale string "echconfig=". -/
def httpssvc_telltale : List Nat := [101, 99, 104, 99, 111, 110, 102, 105, 103, 61]

/-- Modelled from the spec: the C library strspn, length of the longest
span of leading characters drawn from the alphabet. -/
def strspn (s alpha : List Nat) : Nat := (s.takeWhile (fun c => alpha.contains c)).length

/-- Modelled from the spec: the C library strstr, the suffix of the
haystack starting at the first occurrence of the needle (none if the
needle does not occur). -/
def strstrSuffix (hay needle : List Nat) : Option (List Nat) :=
  ((List.range (hay.length + 1)).find? (fun i => needle.isPrefixOf (hay.drop i))).map
    (fun i => hay.drop i)

/-- Translation of ech_guess_fmt from ssl/ech.c: most constrained
format first — the HTTPS/SVCB telltale, then the ascii-hex alphabet,
then base64, else raw binary. -/
def ech_guess_fmt (eklen : Nat) (rrval : List Nat) : Option Nat :=
  if eklen ≤ 0 then none
  else if (strstrSuffix rrval httpssvc_telltale).isSome then some ECH_FMT_HTTPSSVC
  else if eklen ≤ strspn rrval AH_alphabet then some ECH_FMT_ASCIIHEX
  else if eklen ≤ strspn rrval B64_alphabet then some ECH_FMT_B64TXT
  else some ECH_FMT_BIN

/-- Modelled from the spec: the value of one base64 character
(with the padding character = mapped to 0, as EVP_DecodeBlock does). -/
def b64val (c : Nat) : Option Nat :=
  if 65 ≤ c ∧ c ≤ 90 then some (c - 65)
  else if 97 ≤ c ∧ c ≤ 122 then some (c - 97 + 26)
  else if 48 ≤ c ∧ c ≤ 57 then some (c - 48 + 52)
  else if c = 43 then some 62
  else if c = 47 then some 63
  else if c = 61 then some 0
  else none

/-- Modelled from the spec: EVP_DecodeBlock (crypto/evp is not among
the analysed sources): decode a base64 string of 4-character groups
into 3 octets per group, failing on a partial group or a character
outside the alphabet. -/
def EVP_DecodeBlock : List Nat → Option (List Nat)
  | [] => some []
  | c0 :: c1 :: c2 :: c3 :: rest =>
      (b64val c0).bind (fun v0 =>
        (b64val c1).bind (fun v1 =>
          (b64val c2).bind (fun v2 =>
            (b64val c3).bind (fun v3 =>
              (EVP_DecodeBlock rest).map (fun tail =>
                (v0 * 4 + v1 / 16) ::
                (v1 % 16 * 16 + v2 / 4) ::
                (v2 % 4 * 64 + v3) :: tail)))))
  | _ => none

/-- Count of trailing padding characters checked by ech_base64_decode
(any more than 2 is malformed). -/
def b64PadCount (frag : List Nat) : Nat :=
  (frag.reverse.takeWhile (fun c => c = 61)).length

/-- Translation of ech_base64_decode from ssl/ech.c: split the input at
semi-colons, EVP_DecodeBlock each fragment, subtract the padding octets
(at most two) from each fragment's output length, and concatenate. -/
def ech_base64_loop (fuel : Nat) (inp : List Nat) (acc : List Nat) :
    Option (List Nat) :=
  match fuel with
  | 0 => none
  | fuel + 1 =>
    if inp.length = 0 then some acc
    else
      let frag := inp.takeWhile (fun c => c ≠ 59)
      (EVP_DecodeBlock frag).bind (fun ofrag =>
        if b64PadCount frag > 2 then none
        else ech_base64_loop fuel (inp.drop (frag.length + 1))
          (acc ++ ofrag.take (ofrag.length - b64PadCount frag)))

/-- Entry point of ech_base64_decode: empty input yields an empty
output (the C returns 0 octets), otherwise run the fragment loop. -/
def ech_base64_decode (inp : List Nat) : Option (List Nat) :=
  if inp.length = 0 then some []
  else ech_base64_loop (inp.length + 1) inp []

/-- Translation of the multi-ECHConfigs while loop at the end of
local_ech_add.  The source sets er->encoded_len to the whole remaining
buffer length, so outp advances past everything each time; a second
iteration (leftover > 0) therefore parses bytes beyond the decoded
buffer, modelled as parsing the empty remainder, which fails. -/
def echAddLoop (fuel : Nat) (outp : List Nat) (oleftover : Nat)
    (acc : List ECHConfigs) : Option (List ECHConfigs) :=
  match fuel with
  | 0 => none
  | fuel + 1 =>
    (ECHConfigs_from_binary (outp.take oleftover)).bind (fun erp =>
      let acc := acc ++ [erp.1]
      if erp.2 ≤ 0 then some acc
      else echAddLoop fuel (outp.drop erp.1.encoded.length) erp.2 acc)

/-- Translation of local_ech_add from ssl/ech.c: length sanity checks
on the input, format detection or validation, decode of the chosen
format to binary, then the ECHConfigs parse loop.  The C null-pointer
checks on ekval and num_echs have no counterpart for list-valued
arguments. -/
def local_ech_add (ekfmt eklen : Nat) (ekval : List Nat) :
    Option (List ECHConfigs) :=
  if eklen = 0 then none
  else if eklen ≥ ECH_MAX_RRVALUE_LEN then none
  else
    (if ekfmt = ECH_FMT_GUESS then ech_guess_fmt eklen ekval
     else if ekfmt = ECH_FMT_HTTPSSVC ∨ ekfmt = ECH_FMT_ASCIIHEX ∨
         ekfmt = ECH_FMT_B64TXT ∨ ekfmt = ECH_FMT_BIN then some ekfmt
     else none).bind (fun detfmt0 =>
      (if detfmt0 = ECH_FMT_HTTPSSVC then
        (strstrSuffix ekval httpssvc_telltale).bind (fun ekcpy =>
          if ekcpy.length ≤ httpssvc_telltale.length then none
          else some (ECH_FMT_B64TXT, ekcpy.drop httpssvc_telltale.length))
       else some (detfmt0, ekval)).bind (fun fkv =>
        (if fkv.1 = ECH_FMT_B64TXT then ech_base64_decode fkv.2
         else if fkv.1 = ECH_FMT_ASCIIHEX then hpke_ah_decode eklen fkv.2
         else some (fkv.2.take eklen)).bind (fun outbuf =>
          echAddLoop (eklen + 1) outbuf outbuf.length [])))

/-- Connection-level ECH state touched by SSL_ech_add (the ech pointer
and the nechs count of struct ssl_st). -/
structure SSLConn where
  ech : Option (List ECHConfigs)
  nechs : Nat
  deriving DecidableEq, Repr

/-- Translation of SSL_ech_add from ssl/ech.c: on any failure of
local_ech_add the connection is returned unchanged with result 0;
on success the decoded configs are installed. -/
def SSL_ech_add (con : SSLConn) (ekfmt eklen : Nat) (ekval : List Nat) :
    Nat × SSLConn :=
  match local_ech_add ekfmt eklen ekval with
  | none => (0, con)
  | some echs => (1, ⟨some echs, echs.length⟩)

/-- Context-level ECH state touched by SSL_CTX_ech_add (the ext.ech
pointer and ext.nechs count of struct ssl_ctx_st). -/
structure SSLCtxSt where
  ext_ech : Option (List ECHConfigs)
  ext_nechs : Nat
  deriving DecidableEq, Repr

/-- Translation of SSL_CTX_ech_add from ssl/ech.c. -/
def SSL_CTX_ech_add (ctx : SSLCtxSt) (ekfmt eklen : Nat) (ekval : List Nat) :
    Nat × SSLCtxSt :=
  match local_ech_add ekfmt eklen ekval with
  | none => (0, ctx)
  | some echs => (1, ⟨some echs, echs.length⟩)

/-! ## Inner ClientHello encoding (ech_same_ext, ech_encode_inner) -/

/-- One pre-processed ClientHello extension (RAW_EXTENSION): its type,
whether it was present, and its value bytes (none for a NULL data.curr,
in which case an empty extension is emitted). -/
structure RAW_EXTENSION where
  type : Nat
  present : Bool
  data : Option (List Nat)
  deriving DecidableEq, Repr

/-- Compression policy array ech_outer_config from ssl/ech.c (with the
DOCOMPRESS branch, as compiled): 1 marks an extension slot to be
compressed out of the inner via outer_extensions. -/
def ech_outer_config : List Nat :=
  [0, 0, 1, 1, 1, 1, 0, 0, 0, 0, 0, 0, 0, 0, 0, 0, 0, 0, 0, 0, 0, 0, 0, 0,
   0, 0, 0, 0, 0]

/-- Independence policy array ech_outer_indep from ssl/ech.c: 1 marks an
extension whose outer value is generated independently of the inner. -/
def ech_outer_indep : List Nat :=
  [0, 1, 0, 0, 0, 0, 0, 0, 0, 1, 0, 0, 0, 0, 0, 0, 0, 0, 0, 1, 0, 0, 0, 0,
   0, 0, 0, 0, 0]

/-- Modelled from the spec: extension type codes, one per slot of the
TLSEXT_IDX_* order used by the two policy arrays (the values come from
the TLS registry: renegotiate 0xff01, server_name 0, ... psk 41; the
mapping function lives outside the analysed sources). -/
def tlsextIndexTypes : List Nat :=
  [0xff01, 0, 1, 12, 11, 10, 35, 5, 13172, 16, 14, 22, 18, 23, 50, 49, 13,
   43, 45, 51, 44, 0xfde8, 42, 47, 0xffce, 0xfe09, 0xfd00, 21, 41]

/-- Modelled from the spec: ech_map_ext_type_to_ind maps an extension
type code to its slot in the policy arrays, or fails (the C returns -1)
for an unknown type. -/
def ech_map_ext_type_to_ind (etype : Nat) : Option Nat :=
  tlsextIndexTypes.findIdx? (fun t => t = etype)

/-- Modelled from the spec: the outer_extensions extension type code
(draft-09), defined outside the analysed sources. -/
def TLSEXT_TYPE_outer_extensions : Nat := 0xfd00

/-- Handshake message type of a ClientHello (ssl3.h, value 1). -/
def SSL3_MT_CLIENT_HELLO : Nat := 1

/-- Modelled from the spec: WPACKET_put_bytes_u16 appends a 16-bit
big-endian value (the WPACKET writer is not among the analysed
sources). -/
def WPACKET_put_u16 (v : Nat) : List Nat := [v / 256 % 256, v % 256]

/-- Big-endian three-octet length written by the handshake header. -/
def encode3 (v : Nat) : List Nat := [v / 65536 % 256, v / 256 % 256, v % 256]

/-- Result codes of ech_same_ext, from ssl/ech_local.h. -/
def ECH_SAME_EXT_ERR : Nat := 0

/-- Result code: copied existing value and done. -/
def ECH_SAME_EXT_DONE : Nat := 1

/-- Result code: caller should generate the value itself. -/
def ECH_SAME_EXT_CONTINUE : Nat := 2

/-- Translation of ech_same_ext from ssl/ech.c.  The SSL fields it
reads are passed explicitly: hasECH for s->ech, ch_depth and etype from
s->ext, the outer_only list collected so far (its length is the C
n_outer_only counter), and the inner session's pre-processed extensions
(none when inner->clienthello is NULL).  The two policy arrays are
passed as arguments; the source reads the module-level configuration
arrays ech_outer_config / ech_outer_indep defined above.  The result is
the return code, the updated outer_only list and the bytes appended to
the WPACKET. -/
def ech_same_ext (hasECH : Bool) (ch_depth etype : Nat)
    (outer_only : List Nat) (cfgTab indepTab : List Nat)
    (innerRaws : Option (List RAW_EXTENSION)) :
    Nat × List Nat × List Nat :=
  if ¬ hasECH then (ECH_SAME_EXT_CONTINUE, outer_only, [])
  else if ch_depth = 0 then (ECH_SAME_EXT_CONTINUE, outer_only, [])
  else
    match ech_map_ext_type_to_ind etype with
    | none => (ECH_SAME_EXT_ERR, outer_only, [])
    | some tind =>
      if tind ≥ cfgTab.length then (ECH_SAME_EXT_ERR, outer_only, [])
      else if ch_depth = 1 ∧ cfgTab.getD tind 0 = 0 then
        (ECH_SAME_EXT_CONTINUE, outer_only, [])
      else if ch_depth = 1 ∧ cfgTab.getD tind 0 ≠ 0 then
        if outer_only.length ≥ ECH_OUTERS_MAX then (ECH_SAME_EXT_ERR, outer_only, [])
        else (ECH_SAME_EXT_CONTINUE, outer_only ++ [etype], [])
      else
        match innerRaws with
        | none => (ECH_SAME_EXT_ERR, outer_only, [])
        | some raws =>
          if indepTab.getD tind 0 ≠ 0 then (ECH_SAME_EXT_CONTINUE, outer_only, [])
          else
            match raws.find? (fun r => r.type = etype) with
            | none => (ECH_SAME_EXT_CONTINUE, outer_only, [])
            | some myext =>
              match myext.data with
              | some d =>
                if d.length > 0 then
                  (ECH_SAME_EXT_DONE, outer_only,
                   WPACKET_put_u16 etype ++ WPACKET_put_u16 d.length ++ d)
                else (ECH_SAME_EXT_DONE, outer_only,
                      WPACKET_put_u16 etype ++ WPACKET_put_u16 0)
              | none => (ECH_SAME_EXT_DONE, outer_only,
                         WPACKET_put_u16 etype ++ WPACKET_put_u16 0)

/-- Wire bytes of one (non-compressed) extension as emitted by
ech_encode_inner: type, 16-bit length, value (an extension with NULL
data is emitted with length 0). -/
def rawExtBytes (r : RAW_EXTENSION) : List Nat :=
  match r.data with
  | some d => WPACKET_put_u16 r.type ++ WPACKET_put_u16 d.length ++ d
  | none => WPACKET_put_u16 r.type ++ WPACKET_put_u16 0

/-- Bytes of the synthetic outer_extensions extension emitted by
ech_encode_inner: type, then 2*n_outer_only written as a 16-bit value
(this lands in the extension length slot), then the compressed types. -/
def outerExtsBytes (outer_only : List Nat) : List Nat :=
  WPACKET_put_u16 TLSEXT_TYPE_outer_extensions ++
  WPACKET_put_u16 (2 * outer_only.length) ++
  (outer_only.map WPACKET_put_u16).flatten

/-- Translation of the extension loop of ech_encode_inner: walk the
pre-processed extensions, skip absent ones, emit the synthetic
outer_extensions extension at the first compressed extension
(compression_done guards a second emission), skip compressed
extensions, and copy the rest. -/
def echEncodeExtsLoop (outer_only : List Nat) :
    List RAW_EXTENSION → Bool → List Nat
  | [], _ => []
  | r :: rest, compression_done =>
    if ¬ r.present then echEncodeExtsLoop outer_only rest compression_done
    else
      let tobecompressed := outer_only.contains r.type
      (if ¬ compression_done ∧ tobecompressed then outerExtsBytes outer_only else []) ++
      (if ¬ tobecompressed then rawExtBytes r else []) ++
      echEncodeExtsLoop outer_only rest (compression_done ∨ tobecompressed)

/-- Translation of ech_encode_inner from ssl/ech.c: handshake header,
legacy version, client random, an empty legacy_session_id, the cipher
list (whose bytes come from the external ssl_cipher_list_to_bytes and
are passed in), a NULL compression method, then the extension loop.
Fails when s->ech is NULL. -/
def ech_encode_inner (hasECH : Bool) (client_version : Nat)
    (client_random cipherBytes : List Nat) (raws : List RAW_EXTENSION)
    (outer_only : List Nat) : Option (List Nat) :=
  if ¬ hasECH then none
  else
    let extsBytes := echEncodeExtsLoop outer_only raws false
    let body := WPACKET_put_u16 client_version ++ client_random ++ [0] ++
      WPACKET_put_u16 cipherBytes.length ++ cipherBytes ++ [1, 0] ++
      WPACKET_put_u16 extsBytes.length ++ extsBytes
    some ([SSL3_MT_CLIENT_HELLO] ++ encode3 body.length ++ body)

/-- Predicate for an extension that stays in the inner (its type is not
in the compression list). -/
def notCompressed (outer_only : List Nat) (r : RAW_EXTENSION) : Bool :=
  ! outer_only.contains r.type

/-- Specification-shaped form of the extension region, written to
compare with the loop above: the present non-compressed extensions
before the first compressed one, then (when some present extension is
compressed) the single synthetic extension followed by the remaining
present non-compressed extensions. -/
def encodeExtsSpec (outer_only : List Nat) (raws : List RAW_EXTENSION) :
    List Nat :=
  let pres := raws.filter (fun r => r.present)
  let before := pres.takeWhile (notCompressed outer_only)
  let after := pres.dropWhile (notCompressed outer_only)
  (before.map rawExtBytes).flatten ++
  (if after = [] then []
   else outerExtsBytes outer_only ++
     ((after.filter (notCompressed outer_only)).map rawExtBytes).flatten)

/-- Result of parsing an extensions region back into (type, value)
pairs, reading type, 16-bit length and value per extension. -/
def extsRegionList (fuel : Nat) (b : List Nat) : Option (List (Nat × List Nat)) :=
  match fuel with
  | 0 => none
  | fuel + 1 =>
    match b with
    | [] => some []
    | t0 :: t1 :: l0 :: l1 :: rest =>
      let elen := l0 * 256 + l1
      if elen ≤ rest.length then
        (extsRegionList fuel (rest.drop elen)).map
          (fun tail => (t0 * 256 + t1, rest.take elen) :: tail)
      else none
    | _ => none

/-! ## Inner/outer swap (ech_swaperoo) -/

/-- Per-session state touched by ech_swaperoo.  Opaque handles the swap
moves around wholesale (BIOs, record layer, init buffers, state
machine, callbacks) are modelled as numbers. -/
structure SSLx where
  wbio : Nat
  rbio : Nat
  rlayer : Nat
  init_buf : Nat
  init_msg : Nat
  init_off : Nat
  init_num : Nat
  statem : Nat
  debug_cb : Nat
  debug_arg : Nat
  ech_attempted : Nat
  ech_done : Nat
  ech_success : Nat
  innerch : List Nat
  handshake_buffer : List Nat
  deriving DecidableEq, Repr

/-- General field swap of ech_swaperoo: the current handle takes the
inner contents, then transport, init buffers, record layer, state
machine and debug callbacks are copied back from the outer. -/
def swapGeneral (tmp_inner tmp_outer : SSLx) : SSLx :=
  { tmp_inner with
    wbio := tmp_outer.wbio, rbio := tmp_outer.rbio,
    rlayer := tmp_outer.rlayer, init_buf := tmp_outer.init_buf,
    init_msg := tmp_outer.init_msg, init_off := tmp_outer.init_off,
    init_num := tmp_outer.init_num, debug_cb := tmp_outer.debug_cb,
    debug_arg := tmp_outer.debug_arg, statem := tmp_outer.statem }

/-- Length field of the handshake message at the head of the
transcript buffer (1 + the 3-octet big-endian length). -/
def headMsgLen (curr_buf : List Nat) : Nat :=
  1 + curr_buf.getD 1 0 * 65536 + curr_buf.getD 2 0 * 256 + curr_buf.getD 3 0

/-- Transcript rewrite of ech_swaperoo: when the buffer head is a
ClientHello, replace that message with the reconstructed inner
ClientHello (keeping any trailing octets), else use just the inner. -/
def swapTranscript (tmp_outer : SSLx) : List Nat :=
  let curr_buf := tmp_outer.handshake_buffer
  if curr_buf.length > 0 ∧ curr_buf.getD 0 0 = SSL3_MT_CLIENT_HELLO then
    if curr_buf.length - headMsgLen curr_buf > 0 then
      tmp_outer.innerch ++ curr_buf.drop (headMsgLen curr_buf)
    else tmp_outer.innerch
  else tmp_outer.innerch

/-- Post-swap current-session state: inner contents with the outer's
transport/init/statem/debug handles, the rewritten transcript, and the
given ech_success value.  Used to state the swap contract. -/
def swapResult (inp s : SSLx) (succ : Nat) : SSLx :=
  { (swapGeneral inp s) with
    handshake_buffer := swapTranscript s
    ech_success := succ }

/-- Translation of ech_swaperoo from ssl/ech.c.  The s, s->ext.inner_s
and s->ext.inner_s->ext.outer_s pointers are modelled by passing the
outer state, the optional inner state, and a flag for the
inner->outer back-link check (the ossl_assert that it equals s).  The
re-run server-name selection callback final_server_name is external
and passed as a function of the swapped session.  The result is the
return value, the state now bound to the current handle (inner
contents) and the state reachable as its outer_s (outer contents);
on the early check failures the inputs are returned unchanged. -/
def ech_swaperoo (s : SSLx) (inner : Option SSLx) (linkOk : Bool)
    (fsn : SSLx → Nat) : Nat × SSLx × Option SSLx :=
  match inner with
  | none => (0, s, none)
  | some inp =>
    if ¬ linkOk then (0, s, some inp)
    else
      let tmp_outer := s
      let tmp_inner := inp
      let cur := swapGeneral tmp_inner tmp_outer
      let curr_buf := tmp_outer.handshake_buffer
      if curr_buf.length > 0 ∧ curr_buf.getD 0 0 = SSL3_MT_CLIENT_HELLO ∧
          headMsgLen curr_buf > curr_buf.length then
        -- outer_chlen>curr_buflen: SSLfatal and return before the flags
        (0, cur, some tmp_outer)
      else
        let cur := { cur with handshake_buffer := swapTranscript tmp_outer }
        let cur := { cur with ech_success := 1 }
        let peer := { tmp_outer with ech_success := 1 }
        if fsn cur ≠ 1 then
          (0, { cur with ech_success := 0 }, some { peer with ech_success := 0 })
        else (1, cur, some peer)

/-! ## Concrete ECHConfigs inputs used by the parser claims -/

/-- Well-formed draft-09 record: public_name "ab", a 10-octet public
key, kem 0x20, one (1,1) ciphersuite, no extensions (28-octet body). -/
def c3rec1 : List Nat :=
  [0xff, 0x09, 0, 28, 0, 2, 97, 98, 0, 10, 1, 2, 3, 4, 5, 6, 7, 8, 9, 10,
   0, 0x20, 0, 4, 0, 1, 0, 1, 0, 0, 0, 0]

/-- ECHConfigs list holding just the known-version record. -/
def c3good : List Nat := [0, 32] ++ c3rec1

/-- ECHConfigs list holding the known-version record followed by a
well-formed record of unknown version 0xff08 (5-octet body). -/
def c3mixed : List Nat := [0, 41] ++ c3rec1 ++ [0xff, 0x08, 0, 5, 1, 2, 3, 4, 5]

/-- Record parsed from c3rec1. -/
def c3rec1Parsed : ECHConfig :=
  ⟨ECH_DRAFT_09_VERSION, [97, 98], 0x20, [1, 2, 3, 4, 5, 6, 7, 8, 9, 10],
   [[0, 1, 0, 1]], 0, [], []⟩

/-- Fixed 32-octet public key used by the public_name length family. -/
def c7pub : List Nat :=
  [1, 1, 1, 1, 1, 1, 1, 1, 1, 1, 1, 1, 1, 1, 1, 1,
   1, 1, 1, 1, 1, 1, 1, 1, 1, 1, 1, 1, 1, 1, 1, 1]

/-- Portion of the record after the public_name: 32-octet public key,
kem 0x20, one (1,1) ciphersuite, maximum_name_length 0, no extensions. -/
def c7tail : List Nat := [0, 32] ++ c7pub ++ [0, 0x20, 0, 4, 0, 1, 0, 1, 0, 0, 0, 0]

/-- ECHConfigs list with a single draft-09 record that is well-formed
except possibly for the length of its public_name pn. -/
def mkC7 (pn : List Nat) : List Nat :=
  [(pn.length + 52) / 256, (pn.length + 52) % 256, 0xff, 0x09,
   (pn.length + 48) / 256, (pn.length + 48) % 256,
   pn.length / 256, pn.length % 256] ++ pn ++ c7tail

/-- Record that parsing mkC7 pn yields when it succeeds. -/
def mkC7rec (pn : List Nat) : ECHConfig :=
  ⟨ECH_DRAFT_09_VERSION, pn, 0x20, c7pub, [[0, 1, 0, 1]], 0, [], []⟩

/-! ## Concrete inner-encoding scenario (spec scenario S4) -/

/-- Compression policy of the S4 scenario: supported_groups (slot 5)
and signature_algorithms (slot 16) compressed. -/
def c2policy : List Nat :=
  [0, 0, 0, 0, 0, 1, 0, 0, 0, 0, 0, 0, 0, 0, 0, 0, 1, 0, 0, 0, 0, 0, 0, 0,
   0, 0, 0, 0, 0]

/-- Pre-processed extensions of the S4 inner ClientHello:
supported_groups (0x0a), key_share (0x33), signature_algorithms (0x0d),
server_name (0x00), all present with small concrete values. -/
def c2raws : List RAW_EXTENSION :=
  [⟨0x0a, true, some [0, 2, 0, 29]⟩,
   ⟨0x33, true, some [1, 2, 3]⟩,
   ⟨0x0d, true, some [4, 3]⟩,
   ⟨0x00, true, some [7, 7]⟩]

/-- Client random of the S4 scenario. -/
def c2rnd : List Nat := List.replicate 32 9

/-- Marking pass of the S4 scenario: ech_same_ext applied in inner
(depth 1) order to the four extension types under the S4 policy,
accumulating outer_only. -/
def c2mark : List Nat :=
  (([0x0a, 0x33, 0x0d, 0x00] : List Nat).foldl
    (fun oo t => (ech_same_ext true 1 t oo c2policy ech_outer_indep none).2.1) [])

/-- Concrete outer session for the swap scenario: ech_attempted set
(as it is before ech_swaperoo runs on the server), done and success
still clear, a transcript whose head is not a ClientHello. -/
def c4outer : SSLx :=
  ⟨10, 11, 12, 13, 14, 15, 16, 17, 18, 19, 1, 0, 0, [1, 2, 3], [5, 5, 5]⟩

/-- Concrete inner session for the swap scenario. -/
def c4inner : SSLx :=
  ⟨20, 21, 22, 23, 24, 25, 26, 27, 28, 29, 1, 0, 0, [], []⟩

/-! ## Theorems: byte-level helpers -/

theorem encodeBytes_length (L v : Nat) : (encodeBytes L v).length = L := by
  induction L generalizing v with
  | zero => rfl
  | succ n ih => simp [encodeBytes, ih]

theorem ofB_encodeBytes (L v : Nat) (h : v < 256 ^ L) :
    ofB 256 (encodeBytes L v) = v := by
  induction L generalizing v with
  | zero => simpa [encodeBytes, ofB, eq_comm] using Nat.lt_one_iff.mp (by simpa using h)
  | succ n ih =>
      have hdiv : v / 256 < 256 ^ n := by
        rw [Nat.div_lt_iff_lt_mul (by norm_num : 0 < 256)]
        calc v < 256 ^ (n + 1) := h
        _ = 256 ^ n * 256 := by ring
      simp [encodeBytes, ofB, ih (v / 256) hdiv, Nat.mod_add_div]

/-- Setting one entry of a list shifts its base-B value by the weighted
difference of the old and new entries (stated over the integers). -/
theorem ofB_set (B : Nat) (l : List Nat) (i b : Nat) (h : i < l.length) :
    (ofB B (l.set i b) : Int) =
      ofB B l + (B : Int) ^ i * ((b : Int) - (l.get ⟨i, h⟩ : Int)) := by
  induction l generalizing i with
  | nil => cases h
  | cons x xs ih =>
      cases i with
      | zero =>
          simp [ofB, List.set]
          ring
      | succ j =>
          have hj : j < xs.length := by simpa using h
          simp only [List.set, ofB, List.get, Nat.cast_add, Nat.cast_mul]
          rw [ih j hj]
          ring

/-! ## Theorems: HPKE pipeline evaluation and tamper arithmetic -/

theorem ofB_append (B : Nat) (l1 l2 : List Nat) :
    ofB B (l1 ++ l2) = ofB B l1 + B ^ l1.length * ofB B l2 := by
  induction l1 with
  | nil => simp [ofB]
  | cons x xs ih => simp [ofB, ih]; ring

theorem encodeBytes_mem_lt (L v : Nat) : ∀ b ∈ encodeBytes L v, b < 256 := by
  induction L generalizing v with
  | zero => simp [encodeBytes]
  | succ n ih =>
      intro b hb
      simp only [encodeBytes, List.mem_cons] at hb
      rcases hb with h | h
      · omega
      · exact ih _ b h

theorem mapRange_getD (n : Nat) (f : Nat → Nat) (i : Nat) (h : i < n) :
    ((List.range n).map f).getD i 0 = f i := by
  rw [List.getD_eq_getElem?_getD]
  simp [List.getElem?_map, List.getElem?_range, h]

theorem aeadEncBody_length (key iv clear : List Nat) :
    (aeadEncBody key iv clear).length = clear.length := by
  simp [aeadEncBody]

theorem aead_roundtrip (key iv clear : List Nat) (h : ∀ b ∈ clear, b < 256) :
    aeadDecBody key iv (aeadEncBody key iv clear) = clear := by
  apply List.ext_getElem
  · simp [aeadDecBody, aeadEncBody]
  · intro i h1 h2
    simp only [aeadDecBody, List.getElem_map, List.getElem_range,
      List.length_map, List.length_range] at h1 ⊢
    have hi : i < clear.length := by
      simpa [aeadEncBody] using h1
    have hg : ((aeadEncBody key iv clear).getD i 0) =
        (clear.getD i 0 + aeadKS key iv i) % 256 := by
      simpa [aeadEncBody] using mapRange_getD clear.length
        (fun j => (clear.getD j 0 + aeadKS key iv j) % 256) i hi
    rw [hg]
    have hgd : clear.getD i 0 = clear[i] := List.getD_eq_getElem clear 0 hi
    have hlt : clear[i] < 256 := h _ (List.getElem_mem hi)
    have hks : aeadKS key iv i < 256 := by
      simp [aeadKS]
      omega
    rw [hgd]
    omega

theorem aeadDecBody_length (key iv body : List Nat) :
    (aeadDecBody key iv body).length = body.length := by
  simp [aeadDecBody]

theorem suite_check_ids (suite : hpke_suite_t) (hs : hpke_suite_check suite = 1) :
    (suite.kem_id = 0x10 ∨ suite.kem_id = 0x11 ∨ suite.kem_id = 0x12 ∨
      suite.kem_id = 0x20 ∨ suite.kem_id = 0x21) ∧
    (suite.kdf_id = 1 ∨ suite.kdf_id = 2 ∨ suite.kdf_id = 3) ∧
    (suite.aead_id = 1 ∨ suite.aead_id = 2 ∨ suite.aead_id = 3) := by
  rcases suite with ⟨kem, kdf, aead⟩
  simp only [hpke_suite_check, hpke_kem_tab, hpke_kdf_tab, hpke_aead_tab] at hs
  by_contra hcon
  simp only [not_and_or, not_or] at hcon
  rcases hcon with h | h | h <;>
    simp_all [List.any_cons, List.any_nil]

theorem kem_facts (k : Nat)
    (h : k = 0x10 ∨ k = 0x11 ∨ k = 0x12 ∨ k = 0x20 ∨ k = 0x21) :
    (kemRow k).hash_init_func = some (kemRow k).Nsecret ∧
    32 ≤ (kemRow k).Nsecret ∧ (kemRow k).Nsecret ≤ 64 ∧
    32 ≤ (kemRow k).Npk ∧ (kemRow k).Npk ≤ 133 ∧
    32 ≤ (kemRow k).Npriv ∧ (kemRow k).Npriv ≤ 66 := by
  rcases h with h | h | h | h | h <;> subst h <;> decide

theorem kdf_facts (k : Nat) (h : k = 1 ∨ k = 2 ∨ k = 3) :
    (kdfRow k).hash_init_func = some (kdfRow k).Nh ∧
    32 ≤ (kdfRow k).Nh ∧ (kdfRow k).Nh ≤ 64 := by
  rcases h with h | h | h <;> subst h <;> decide

theorem aead_facts (k : Nat) (h : k = 1 ∨ k = 2 ∨ k = 3) :
    (aeadRow k).aead_init_func = true ∧ (aeadRow k).taglen = 16 ∧
    (aeadRow k).Nn = 12 ∧ 16 ≤ (aeadRow k).Nk ∧ (aeadRow k).Nk ≤ 32 := by
  rcases h with h | h | h <;> subst h <;> decide

theorem hpke_extract_full_eval (suite : hpke_suite_t) (salt label ikm : List Nat)
    (cap Nh : Nat) (hk : (kdfRow suite.kdf_id).hash_init_func = some Nh)
    (hlen : 17 + label.length + ikm.length < 1024) (hcap : Nh ≤ cap) :
    hpke_extract suite HPKE_5869_MODE_FULL salt label ikm cap =
      .ok (encodeBytes Nh (extractVal Nh salt (fullLabIkm suite label ikm))) := by
  rw [hpke_extract, extractLab]
  simp only [HPKE_5869_MODE_FULL, HPKE_5869_MODE_PURE, HPKE_5869_MODE_KEM]
  norm_num
  rw [if_neg]
  · rw [mdSize]
    simp [hk, Nat.not_lt.mpr hcap, HPKE_5869_MODE_KEM]
  · simp only [fullLabIkm, HPKE_VERLABEL, HPKE_SEC51LABEL, u16be,
      List.length_append, List.length_cons, List.length_nil, HPKE_MAXSIZE]
    push_neg
    simp
    omega

theorem hpke_extract_kem_eval (suite : hpke_suite_t) (salt label ikm : List Nat)
    (cap Nh : Nat) (hk : (kemRow suite.kem_id).hash_init_func = some Nh)
    (hlen : 12 + label.length + ikm.length < 1024) (hcap : Nh ≤ cap) :
    hpke_extract suite HPKE_5869_MODE_KEM salt label ikm cap =
      .ok (encodeBytes Nh (extractVal Nh salt (kemLabIkm suite label ikm))) := by
  rw [hpke_extract, extractLab]
  simp only [HPKE_5869_MODE_FULL, HPKE_5869_MODE_PURE, HPKE_5869_MODE_KEM]
  norm_num
  rw [if_neg]
  · rw [mdSize]
    simp [hk, Nat.not_lt.mpr hcap, HPKE_5869_MODE_KEM]
  · simp only [kemLabIkm, HPKE_VERLABEL, HPKE_SEC41LABEL, u16be,
      List.length_append, List.length_cons, List.length_nil, HPKE_MAXSIZE]
    push_neg
    simp
    omega

theorem hpke_expand_full_eval (suite : hpke_suite_t) (prk label info : List Nat)
    (L cap Nh : Nat) (hk : (kdfRow suite.kdf_id).hash_init_func = some Nh)
    (hlen : 19 + label.length + info.length < 1024) :
    hpke_expand suite HPKE_5869_MODE_FULL prk label info L cap =
      .ok (encodeBytes cap (expandVal cap prk (fullLabInfo suite L label info))) := by
  rw [hpke_expand, expandLab]
  simp only [HPKE_5869_MODE_FULL, HPKE_5869_MODE_PURE, HPKE_5869_MODE_KEM]
  norm_num
  rw [if_neg]
  · rw [mdSize]
    simp [hk, HPKE_5869_MODE_KEM]
  · simp only [fullLabInfo, fullLabIkm, HPKE_VERLABEL, HPKE_SEC51LABEL, u16be,
      List.length_append, List.length_cons, List.length_nil, HPKE_MAXSIZE]
    push_neg
    simp
    omega

theorem hpke_expand_kem_eval (suite : hpke_suite_t) (prk label info : List Nat)
    (L cap Nh : Nat) (hk : (kemRow suite.kem_id).hash_init_func = some Nh)
    (hlen : 14 + label.length + info.length < 1024) :
    hpke_expand suite HPKE_5869_MODE_KEM prk label info L cap =
      .ok (encodeBytes cap (expandVal cap prk (kemLabInfo suite L label info))) := by
  rw [hpke_expand, expandLab]
  simp only [HPKE_5869_MODE_FULL, HPKE_5869_MODE_PURE, HPKE_5869_MODE_KEM]
  norm_num
  rw [if_neg]
  · rw [mdSize]
    simp [hk, HPKE_5869_MODE_KEM]
  · simp only [kemLabInfo, kemLabIkm, HPKE_VERLABEL, HPKE_SEC41LABEL, u16be,
      List.length_append, List.length_cons, List.length_nil, HPKE_MAXSIZE]
    push_neg
    simp
    omega

theorem exbind_ok {α β : Type} (a : α) (f : α → Except HpkeErr β) :
    (Except.ok a : Except HpkeErr α).bind f = f a := rfl

theorem exbind_err {α β : Type} (e : HpkeErr) (f : α → Except HpkeErr β) :
    (Except.error e : Except HpkeErr α).bind f = .error e := rfl

theorem hpke_eae_eval (suite : hpke_suite_t) (zz context : List Nat) (Nh : Nat)
    (hk : (kemRow suite.kem_id).hash_init_func = some Nh)
    (hNh : Nh = (kemRow suite.kem_id).Nsecret) (hN64 : Nh ≤ 64)
    (hz : zz.length ≤ 200) (hc : context.length ≤ 500) :
    hpke_extract_and_expand suite HPKE_5869_MODE_KEM zz context =
      .ok (encodeBytes (kemRow suite.kem_id).Nsecret
        (ssVal suite zz context)) := by
  rw [hpke_extract_and_expand]
  rw [hpke_extract_kem_eval suite [] HPKE_EAE_PRK_LABEL zz HPKE_MAXSIZE Nh hk
    (by simp [HPKE_EAE_PRK_LABEL]; omega) (by simp [HPKE_MAXSIZE]; omega)]
  rw [exbind_ok]
  rw [hpke_expand_kem_eval suite _ HPKE_SS_LABEL context
    (kemRow suite.kem_id).Nsecret (kemRow suite.kem_id).Nsecret Nh hk
    (by simp [HPKE_SS_LABEL]; omega)]
  rw [ssVal, eaePrkVal, hNh]

theorem hpke_do_kem_base_eval (encrypting : Bool) (suite : hpke_suite_t)
    (key1 key2 : Nat) (key1enc key2enc : List Nat) (Nh : Nat)
    (hk : (kemRow suite.kem_id).hash_init_func = some Nh)
    (hNh : Nh = (kemRow suite.kem_id).Nsecret) (hN64 : Nh ≤ 64)
    (hpriv : (kemRow suite.kem_id).Npriv ≤ 66)
    (hlen : key1enc.length + key2enc.length ≤ 400) :
    hpke_do_kem encrypting suite key1 key1enc key2 key2enc none [] =
      .ok (encodeBytes (kemRow suite.kem_id).Nsecret
        (ssVal suite (encodeBytes (kemRow suite.kem_id).Npriv (dhDerive key1 key2))
          (if encrypting then key1enc ++ key2enc else key2enc ++ key1enc))) := by
  rw [hpke_do_kem]
  simp only [encodeBytes_length, List.length_nil]
  rw [if_neg (by simp [HPKE_MAXSIZE]; omega)]
  rw [if_neg (by simp [HPKE_MAXSIZE]; omega)]
  rw [if_neg (by simp)]
  simp only [ne_eq, not_true_eq_false, false_and, if_false, ite_self]
  rw [hpke_eae_eval suite _ _ Nh hk hNh hN64 (by simp [encodeBytes_length]; omega)
    (by rcases encrypting <;> simp <;> omega)]

theorem hpke_ks_context_eval (suite : hpke_suite_t) (mode : Nat)
    (pskid psk : Option (List Nat)) (info : List Nat) (Nh : Nat)
    (hk : (kdfRow suite.kdf_id).hash_init_func = some Nh) (hN64 : Nh ≤ 64)
    (hNh : Nh = (kdfRow suite.kdf_id).Nh)
    (hpskid : (if psk = none then [] else pskid.getD []).length ≤ 500)
    (hinfo : info.length ≤ 900) :
    hpke_ks_context suite mode pskid psk info =
      .ok (ksCtxB suite mode pskid psk info) := by
  rw [hpke_ks_context]
  rw [hpke_extract_full_eval suite [] HPKE_PSKIDHASH_LABEL _ _ Nh hk
    (by simp [HPKE_PSKIDHASH_LABEL]; omega) (by simp [HPKE_MAXSIZE]; omega)]
  rw [exbind_ok]
  rw [hpke_extract_full_eval suite [] HPKE_INFOHASH_LABEL info _ Nh hk
    (by simp [HPKE_INFOHASH_LABEL]; omega)
    (by simp [HPKE_MAXSIZE, encodeBytes_length]; omega)]
  rw [exbind_ok, ksCtxB, hNh]

theorem hpke_schedule_eval (suite : hpke_suite_t) (ss : List Nat)
    (psk : Option (List Nat)) (ks_context : List Nat) (Nh : Nat)
    (hk : (kdfRow suite.kdf_id).hash_init_func = some Nh) (hN64 : Nh ≤ 64)
    (hNh : Nh = (kdfRow suite.kdf_id).Nh)
    (hNn : (aeadRow suite.aead_id).Nn = 12)
    (hpsk : (psk.getD []).length ≤ 500) (hksc : ks_context.length ≤ 200) :
    hpke_schedule suite ss psk ks_context =
      .ok (encodeBytes (aeadRow suite.aead_id).Nn
             (nonceVal suite (secretB suite ss psk) ks_context),
           encodeBytes (aeadRow suite.aead_id).Nk
             (keyVal suite (secretB suite ss psk) ks_context)) := by
  rw [hpke_schedule]
  rw [hpke_extract_full_eval suite [] HPKE_PSK_HASH_LABEL _ _ Nh hk
    (by simp [HPKE_PSK_HASH_LABEL]; omega) (by simp [HPKE_MAXSIZE]; omega)]
  rw [exbind_ok]
  rw [if_neg (by omega)]
  rw [hpke_extract_full_eval suite ss HPKE_SECRET_LABEL _ _ Nh hk
    (by simp [HPKE_SECRET_LABEL]; omega) (by omega)]
  rw [exbind_ok]
  rw [hpke_expand_full_eval suite _ HPKE_NONCE_LABEL ks_context _ _ Nh hk
    (by simp [HPKE_NONCE_LABEL]; omega)]
  rw [exbind_ok]
  rw [if_neg (by simp [encodeBytes_length, hNn])]
  rw [hpke_expand_full_eval suite _ HPKE_KEY_LABEL ks_context _ _ Nh hk
    (by simp [HPKE_KEY_LABEL]; omega)]
  rw [exbind_ok]
  rw [hpke_expand_full_eval suite _ HPKE_EXP_LABEL ks_context _ _ Nh hk
    (by simp [HPKE_EXP_LABEL]; omega)]
  rw [exbind_ok]
  rw [exbind_ok]
  rw [if_neg (by simp [encodeBytes_length, hNn])]
  rw [secretB, keyVal, nonceVal, secretVal, hNh]

theorem hpke_enc_base_eval (suite : hpke_suite_t)
    (pskid psk : Option (List Nat)) (psklen : Nat)
    (pub priv clear aad info : List Nat) (skE : Nat)
    (senderpubCap cipherCap : Nat)
    (hs : hpke_suite_check suite = 1)
    (Nh : Nat) (hkdf : (kdfRow suite.kdf_id).hash_init_func = some Nh)
    (hNh : Nh = (kdfRow suite.kdf_id).Nh) (hN64 : Nh ≤ 64)
    (hkem : (kemRow suite.kem_id).hash_init_func = some (kemRow suite.kem_id).Nsecret)
    (hNs64 : (kemRow suite.kem_id).Nsecret ≤ 64)
    (hpriv : (kemRow suite.kem_id).Npriv ≤ 66)
    (hNpk : 1 ≤ (kemRow suite.kem_id).Npk ∧ (kemRow suite.kem_id).Npk ≤ 133)
    (hNn : (aeadRow suite.aead_id).Nn = 12)
    (htag : (aeadRow suite.aead_id).taglen = 16)
    (hinit : (aeadRow suite.aead_id).aead_init_func = true)
    (hpub : pub.length ≤ 200)
    (hpskid : (if psk = none then [] else pskid.getD []).length ≤ 500)
    (hpsk : (psk.getD []).length ≤ 500)
    (hinfo : info.length ≤ 900) (hclear : clear.length ≤ 1008)
    (hccap : clear.length + 16 ≤ cipherCap)
    (hscap : (kemRow suite.kem_id).Npk ≤ senderpubCap) :
    hpke_enc HPKE_MODE_BASE suite pskid psklen psk pub priv clear aad info skE
        senderpubCap cipherCap =
      .ok (encodeBytes (kemRow suite.kem_id).Npk (dhPub skE),
        aeadEncBody
          (deriveNK suite HPKE_MODE_BASE pskid psk info
            (dhDerive skE (ofB 256 pub))
            (encodeBytes (kemRow suite.kem_id).Npk (dhPub skE) ++ pub)).2
          (deriveNK suite HPKE_MODE_BASE pskid psk info
            (dhDerive skE (ofB 256 pub))
            (encodeBytes (kemRow suite.kem_id).Npk (dhPub skE) ++ pub)).1
          clear ++
        encodeBytes 16
          (aeadTagVal
            (deriveNK suite HPKE_MODE_BASE pskid psk info
              (dhDerive skE (ofB 256 pub))
              (encodeBytes (kemRow suite.kem_id).Npk (dhPub skE) ++ pub)).2
            aad
            (aeadEncBody
              (deriveNK suite HPKE_MODE_BASE pskid psk info
                (dhDerive skE (ofB 256 pub))
                (encodeBytes (kemRow suite.kem_id).Npk (dhPub skE) ++ pub)).2
              (deriveNK suite HPKE_MODE_BASE pskid psk info
                (dhDerive skE (ofB 256 pub))
                (encodeBytes (kemRow suite.kem_id).Npk (dhPub skE) ++ pub)).1
              clear))) := by
  rw [hpke_enc]
  rw [if_neg (by decide)]
  rw [if_neg (by simp [hpke_psk_check, HPKE_MODE_BASE, HPKE_MODE_AUTH])]
  rw [if_neg (by omega)]
  rw [if_neg (by simp [HPKE_MODE_BASE, HPKE_MODE_AUTH, HPKE_MODE_PSKAUTH])]
  rw [if_neg (by simp [HPKE_MODE_BASE, HPKE_MODE_PSK, HPKE_MODE_PSKAUTH])]
  simp only [encodeBytes_length]
  rw [if_neg (by omega)]
  rw [if_neg (by simp [HPKE_MODE_BASE, HPKE_MODE_AUTH, HPKE_MODE_PSKAUTH])]
  rw [exbind_ok]
  rw [hpke_do_kem_base_eval true suite skE (ofB 256 pub) _ pub
    (kemRow suite.kem_id).Nsecret hkem rfl hNs64 hpriv
    (by simp [encodeBytes_length]; omega)]
  rw [exbind_ok]
  rw [hpke_ks_context_eval suite HPKE_MODE_BASE pskid psk info Nh hkdf hN64 hNh
    hpskid hinfo]
  rw [exbind_ok]
  rw [hpke_schedule_eval suite _ psk _ Nh hkdf hN64 hNh hNn hpsk
    (by simp [ksCtxB, encodeBytes_length]; omega)]
  rw [exbind_ok]
  rw [hpke_aead_enc]
  rw [if_neg (by simp only [HPKE_MAXSIZE, htag]; omega)]
  rw [if_neg (by simp [hinit])]
  rw [exbind_ok]
  rw [if_neg (by simp [aeadEncBody_length, encodeBytes_length, htag]; omega)]
  rw [if_neg (by simp [encodeBytes_length]; omega)]
  simp [deriveNK, htag]

theorem hpke_dec_base_eval (suite : hpke_suite_t)
    (pskid psk : Option (List Nat)) (psklen : Nat)
    (enc cipher aad info : List Nat) (skR : Nat) (clearCap : Nat)
    (hs : hpke_suite_check suite = 1)
    (Nh : Nat) (hkdf : (kdfRow suite.kdf_id).hash_init_func = some Nh)
    (hNh : Nh = (kdfRow suite.kdf_id).Nh) (hN64 : Nh ≤ 64)
    (hkem : (kemRow suite.kem_id).hash_init_func = some (kemRow suite.kem_id).Nsecret)
    (hNs64 : (kemRow suite.kem_id).Nsecret ≤ 64)
    (hpriv : (kemRow suite.kem_id).Npriv ≤ 66)
    (hNpk : 1 ≤ (kemRow suite.kem_id).Npk ∧ (kemRow suite.kem_id).Npk ≤ 133)
    (hNn : (aeadRow suite.aead_id).Nn = 12)
    (htag : (aeadRow suite.aead_id).taglen = 16)
    (hinit : (aeadRow suite.aead_id).aead_init_func = true)
    (henc : enc.length ≤ 200)
    (hpskid : (if psk = none then [] else pskid.getD []).length ≤ 500)
    (hpsk : (psk.getD []).length ≤ 500)
    (hinfo : info.length ≤ 900)
    (hcip : 16 ≤ cipher.length ∧ cipher.length ≤ 1024)
    (hclr : cipher.length ≤ clearCap + 16) :
    hpke_dec HPKE_MODE_BASE suite pskid psklen psk [] [] (some skR)
        enc cipher aad info clearCap =
      if List.drop (cipher.length - 16) cipher ≠
          encodeBytes 16
            (aeadTagVal
              (deriveNK suite HPKE_MODE_BASE pskid psk info
                (dhDerive skR (ofB 256 enc))
                (enc ++ encodeBytes (kemRow suite.kem_id).Npk (dhPub skR))).2
              aad (List.take (cipher.length - 16) cipher))
      then .error .badTag
      else .ok (aeadDecBody
        (deriveNK suite HPKE_MODE_BASE pskid psk info
          (dhDerive skR (ofB 256 enc))
          (enc ++ encodeBytes (kemRow suite.kem_id).Npk (dhPub skR))).2
        (deriveNK suite HPKE_MODE_BASE pskid psk info
          (dhDerive skR (ofB 256 enc))
          (enc ++ encodeBytes (kemRow suite.kem_id).Npk (dhPub skR))).1
        (List.take (cipher.length - 16) cipher)) := by
  rw [hpke_dec]
  rw [if_neg (by decide)]
  rw [if_neg (by simp [hpke_psk_check, HPKE_MODE_BASE, HPKE_MODE_AUTH])]
  rw [if_neg (by omega)]
  rw [if_neg (by simp)]
  rw [if_neg (by simp [HPKE_MODE_BASE, HPKE_MODE_AUTH, HPKE_MODE_PSKAUTH])]
  rw [if_neg (by simp [HPKE_MODE_BASE, HPKE_MODE_PSK, HPKE_MODE_PSKAUTH])]
  rw [exbind_ok]
  simp only [encodeBytes_length, List.length_nil]
  rw [if_neg (by omega)]
  rw [if_neg (by simp)]
  rw [hpke_do_kem_base_eval false suite skR (ofB 256 enc) _ enc
    (kemRow suite.kem_id).Nsecret hkem rfl hNs64 hpriv
    (by simp [encodeBytes_length]; omega)]
  norm_num
  rw [exbind_ok]
  rw [hpke_ks_context_eval suite HPKE_MODE_BASE pskid psk info Nh hkdf hN64 hNh
    hpskid hinfo]
  rw [exbind_ok]
  rw [hpke_schedule_eval suite _ psk _ Nh hkdf hN64 hNh hNn hpsk
    (by simp [ksCtxB, encodeBytes_length]; omega)]
  rw [exbind_ok]
  rw [hpke_aead_dec]
  rw [if_neg (by simp [hinit])]
  have hn : (cipher.length + SIZE_T_MOD - (aeadRow suite.aead_id).taglen) %
      SIZE_T_MOD = cipher.length - 16 := by
    rw [htag]
    simp only [SIZE_T_MOD]
    omega
  rw [hn]
  rw [if_neg (by omega)]
  rw [htag]
  by_cases hc : List.drop (cipher.length - 16) cipher =
      encodeBytes 16
        (aeadTagVal
          (deriveNK suite HPKE_MODE_BASE pskid psk info
            (dhDerive skR (ofB 256 enc))
            (enc ++ encodeBytes (kemRow suite.kem_id).Npk (dhPub skR))).2
          aad (List.take (cipher.length - 16) cipher))
  · simp only [deriveNK] at hc ⊢
    have hmin1 : ¬ (HPKE_MAXSIZE < cipher.length - 16) := by
      simp only [HPKE_MAXSIZE]
      omega
    have hmin2 : ¬ (clearCap < cipher.length - 16) := by
      omega
    simp [hc, aeadDecBody_length, List.length_take, hmin1, hmin2]
    rw [exbind_ok]
    rw [if_neg (by simp only [aeadDecBody_length, List.length_take]; omega)]
  · simp only [deriveNK] at hc ⊢
    simp [hc]
    rw [exbind_err]

theorem ofB_lt (l : List Nat) (h : ∀ b ∈ l, b < 256) :
    ofB 256 l < 256 ^ l.length := by
  induction l with
  | nil => simp [ofB]
  | cons x xs ih =>
      have hx : x < 256 := h x (by simp)
      have hxs := ih (fun b hb => h b (by simp [hb]))
      simp only [ofB, List.length_cons, pow_succ]
      calc x + 256 * ofB 256 xs < 256 + 256 * ofB 256 xs := by omega
      _ ≤ 256 * (ofB 256 xs + 1) := by ring_nf; omega
      _ ≤ 256 * 256 ^ xs.length := by
          have : ofB 256 xs + 1 ≤ 256 ^ xs.length := hxs
          exact Nat.mul_le_mul_left 256 this
      _ = 256 ^ xs.length * 256 := by ring

theorem encodeBytes_ne_of_ne (L v w : Nat) (hv : v < 256 ^ L) (hw : w < 256 ^ L)
    (hne : v ≠ w) : encodeBytes L v ≠ encodeBytes L w := by
  intro h
  apply hne
  have := congrArg (ofB 256) h
  rwa [ofB_encodeBytes L v hv, ofB_encodeBytes L w hw] at this

theorem delta_val (d : Int) (h0 : d ≠ 0) (hb : d.natAbs ≤ 255) :
    ∃ t, t ≤ 7 ∧ ((2 : Int) ^ t ∣ d) ∧ ¬ ((2 : Int) ^ (t + 1) ∣ d) := by
  have hn0 : d.natAbs ≠ 0 := by
    simpa using h0
  refine ⟨padicValNat 2 d.natAbs, ?_, ?_, ?_⟩
  · by_contra hgt
    push_neg at hgt
    have hdvd : 2 ^ padicValNat 2 d.natAbs ∣ d.natAbs := pow_padicValNat_dvd
    have hle : 2 ^ padicValNat 2 d.natAbs ≤ d.natAbs :=
      Nat.le_of_dvd (Nat.pos_of_ne_zero hn0) hdvd
    have : (2 : Nat) ^ 8 ≤ 2 ^ padicValNat 2 d.natAbs :=
      Nat.pow_le_pow_right (by norm_num) hgt
    omega
  · have hdvd : 2 ^ padicValNat 2 d.natAbs ∣ d.natAbs := pow_padicValNat_dvd
    have := Int.natCast_dvd_natCast.mpr hdvd
    rwa [Int.dvd_natAbs, Nat.cast_pow] at this
  · intro hdvd
    have h1 : ((2 : Nat) : Int) ^ (padicValNat 2 d.natAbs + 1) ∣ d := by
      exact_mod_cast hdvd
    rw [← Nat.cast_pow, Int.natCast_dvd] at h1
    exact pow_succ_padicValNat_not_dvd hn0 h1

theorem not_dvd_term (t k : Nat) (d : Int) (hnd : ¬ ((2 : Int) ^ (t + 1) ∣ d)) :
    ¬ ((2 : Int) ^ (t + 1) ∣ (257 : Int) ^ k * d) := by
  intro h
  apply hnd
  have hna : 2 ^ (t + 1) ∣ (257 : Int).natAbs ^ k * d.natAbs := by
    have := Int.natAbs_dvd_natAbs.mpr h
    simpa [Int.natAbs_mul, Int.natAbs_pow] using this
  have hcop : Nat.Coprime (2 ^ (t + 1)) (257 ^ k) :=
    Nat.Coprime.pow _ _ (by norm_num)
  have : 2 ^ (t + 1) ∣ d.natAbs :=
    (Nat.Coprime.dvd_of_dvd_mul_left hcop) hna
  have h2 := Int.natCast_dvd_natCast.mpr this
  rwa [Int.dvd_natAbs, Nat.cast_pow] at h2

theorem chain_step (m s : Nat) (u u' : Nat) (D : Int) (hs : s ≤ m)
    (hcong : Int.ModEq ((2 : Int) ^ m) (u' : Int) ((u : Int) + D))
    (hnd : ¬ ((2 : Int) ^ s ∣ D)) :
    ¬ ((2 : Int) ^ s ∣ ((u' : Int) - (u : Int))) := by
  intro hdvd
  apply hnd
  have h1 : Int.ModEq ((2 : Int) ^ s) (u' : Int) ((u : Int) + D) :=
    hcong.of_dvd (pow_dvd_pow 2 hs)
  have h2 : (2 : Int) ^ s ∣ ((u : Int) + D - u') := (Int.modEq_iff_dvd.mp h1)
  have h3 : D = ((u : Int) + D - u') + ((u' : Int) - u) := by ring
  rw [h3]
  exact dvd_add h2 hdvd

theorem natmod_cast_modeq (x M : Nat) :
    Int.ModEq (M : Int) (((x % M : Nat) : Int)) (x : Int) := by
  have : ((x % M : Nat) : Int) = (x : Int) % (M : Int) := by push_cast; ring
  rw [this]
  exact Int.emod_emod_of_dvd _ dvd_rfl

theorem mod_eq_int_dvd (a b M : Nat) (h : a % M = b % M) :
    (M : Int) ∣ ((a : Int) - (b : Int)) := by
  have h1 : ((a % M : Nat) : Int) = ((b % M : Nat) : Int) := by exact_mod_cast h
  have h2 : Int.ModEq (M : Int) (a : Int) (b : Int) :=
    ((natmod_cast_modeq a M).symm.trans (h1 ▸ natmod_cast_modeq b M))
  exact (Int.modEq_iff_dvd.mp h2.symm)

theorem tagVal_ne_single (A : Nat) (L L' : List Nat) (j b : Nat) (hj : j < L.length)
    (hset : L' = L.set j b) (hb : b < 256) (hLb : L.get ⟨j, hj⟩ < 256)
    (hne : b ≠ L.get ⟨j, hj⟩) :
    (A + ofB 257 L') % 2 ^ 128 ≠ (A + ofB 257 L) % 2 ^ 128 := by
  intro heq
  have hofb : (ofB 257 L' : Int) =
      ofB 257 L + (257 : Int) ^ j * ((b : Int) - (L.get ⟨j, hj⟩ : Int)) := by
    rw [hset]; exact ofB_set 257 L j b hj
  have hd0 : ((b : Int) - (L.get ⟨j, hj⟩ : Int)) ≠ 0 := by
    intro h
    exact hne (by exact_mod_cast sub_eq_zero.mp h)
  have hdb : ((b : Int) - (L.get ⟨j, hj⟩ : Int)).natAbs ≤ 255 := by omega
  obtain ⟨t, ht7, _, htnd⟩ := delta_val _ hd0 hdb
  have hdvd : ((2 : Int) ^ 128) ∣
      ((A + ofB 257 L' : Nat) : Int) - ((A + ofB 257 L : Nat) : Int) := by
    have := mod_eq_int_dvd (A + ofB 257 L') (A + ofB 257 L) (2 ^ 128) heq
    simpa using this
  have hdvd2 : ((2 : Int) ^ (t + 1)) ∣
      (257 : Int) ^ j * ((b : Int) - (L.get ⟨j, hj⟩ : Int)) := by
    have heq2 : ((A + ofB 257 L' : Nat) : Int) - ((A + ofB 257 L : Nat) : Int) =
        (257 : Int) ^ j * ((b : Int) - (L.get ⟨j, hj⟩ : Int)) := by
      push_cast
      rw [hofb]
      ring
    rw [heq2] at hdvd
    exact dvd_trans (pow_dvd_pow 2 (by omega)) hdvd
  exact not_dvd_term t j _ htnd hdvd2

theorem tagVal_ne_key (vk vk' P : Nat) (s : Nat) (hs : s ≤ 128)
    (hk : ¬ ((2 : Int) ^ s ∣ ((vk' : Int) - (vk : Int)))) :
    (vk' + P) % 2 ^ 128 ≠ (vk + P) % 2 ^ 128 := by
  intro heq
  apply hk
  have := mod_eq_int_dvd (vk' + P) (vk + P) (2 ^ 128) heq
  have h2 : ((vk' + P : Nat) : Int) - ((vk + P : Nat) : Int) =
      (vk' : Int) - (vk : Int) := by push_cast; ring
  rw [h2] at this
  exact dvd_trans (pow_dvd_pow 2 hs) (by simpa using this)

theorem pow256 (n : Nat) : (256 : Nat) ^ n = 2 ^ (8 * n) := by
  rw [show (256 : Nat) = 2 ^ 8 by norm_num, ← pow_mul]

theorem ofB_encodeBytes_pow (L v : Nat) (h : v < 2 ^ (8 * L)) :
    ofB 256 (encodeBytes L v) = v :=
  ofB_encodeBytes L v (by rwa [pow256])

theorem eaePrkVal_closed (suite : hpke_suite_t) (zzv : Nat)
    (hz : zzv < 2 ^ 96) (hNp : 12 ≤ (kemRow suite.kem_id).Npriv)
    (hNs1 : 32 ≤ (kemRow suite.kem_id).Nsecret) :
    eaePrkVal suite (encodeBytes (kemRow suite.kem_id).Npriv zzv) =
      ofB 256 (HPKE_VERLABEL ++ HPKE_SEC41LABEL ++ u16be suite.kem_id ++
        HPKE_EAE_PRK_LABEL) + 2 ^ 152 * zzv := by
  have hzz : ofB 256 (encodeBytes (kemRow suite.kem_id).Npriv zzv) = zzv := by
    apply ofB_encodeBytes_pow
    calc zzv < 2 ^ 96 := hz
    _ ≤ 2 ^ (8 * (kemRow suite.kem_id).Npriv) :=
      Nat.pow_le_pow_right (by norm_num) (by omega)
  have hsplit : kemLabIkm suite HPKE_EAE_PRK_LABEL
      (encodeBytes (kemRow suite.kem_id).Npriv zzv) =
      (HPKE_VERLABEL ++ HPKE_SEC41LABEL ++ u16be suite.kem_id ++
        HPKE_EAE_PRK_LABEL) ++ encodeBytes (kemRow suite.kem_id).Npriv zzv := by
    simp [kemLabIkm, List.append_assoc]
  have hprelen : (HPKE_VERLABEL ++ HPKE_SEC41LABEL ++ u16be suite.kem_id ++
      HPKE_EAE_PRK_LABEL).length = 19 := by
    simp [HPKE_VERLABEL, HPKE_SEC41LABEL, u16be, HPKE_EAE_PRK_LABEL]
  have hprelt : ofB 256 (HPKE_VERLABEL ++ HPKE_SEC41LABEL ++ u16be suite.kem_id ++
      HPKE_EAE_PRK_LABEL) < 2 ^ 152 := by
    have := ofB_lt (HPKE_VERLABEL ++ HPKE_SEC41LABEL ++ u16be suite.kem_id ++
      HPKE_EAE_PRK_LABEL) (by
        intro x hx
        simp [HPKE_VERLABEL, HPKE_SEC41LABEL, u16be, HPKE_EAE_PRK_LABEL] at hx
        rcases hx with h | h | h <;> omega)
    rwa [hprelen, pow256] at this
  rw [eaePrkVal, extractVal, hsplit, ofB_append, hprelen, hzz]
  rw [show (ofB 256 ([] : List Nat)) = 0 from rfl]
  rw [show (256 : Nat) ^ 19 = 2 ^ 152 by rw [pow256]]
  rw [Nat.zero_add]
  apply Nat.mod_eq_of_lt
  have hAB : (2 : Nat) ^ 152 * 2 ^ 96 = 2 ^ 248 := by rw [← pow_add]
  have hC : (2 : Nat) ^ 249 = 2 ^ 248 * 2 := by rw [pow_succ]
  have hD : (2 : Nat) ^ 249 ≤ 2 ^ (8 * (kemRow suite.kem_id).Nsecret) :=
    Nat.pow_le_pow_right (by norm_num) (by omega)
  have hmul : (2 : Nat) ^ 152 * zzv ≤ 2 ^ 152 * (2 ^ 96 - 1) :=
    Nat.mul_le_mul_left _ (by omega)
  have hms : (2 : Nat) ^ 152 * (2 ^ 96 - 1) = 2 ^ 152 * 2 ^ 96 - 2 ^ 152 := by
    rw [Nat.mul_sub]
    simp
  omega

theorem ofB_set_getD (B : Nat) (l : List Nat) (i b : Nat) (h : i < l.length) :
    (ofB B (l.set i b) : Int) =
      ofB B l + (B : Int) ^ i * ((b : Int) - (l.getD i 0 : Int)) := by
  rw [ofB_set B l i b h]
  congr 2
  rw [List.getD_eq_getElem l 0 h, List.get_eq_getElem]

theorem extractVal_lt (Nh : Nat) (salt lab : List Nat) :
    extractVal Nh salt lab < 2 ^ (8 * Nh) :=
  Nat.mod_lt _ (by positivity)

theorem expandVal_lt (L : Nat) (prk lab : List Nat) :
    expandVal L prk lab < 2 ^ (8 * L) :=
  Nat.mod_lt _ (by positivity)

theorem kemLabInfo_split (suite : hpke_suite_t) (L : Nat) (kc : List Nat) :
    kemLabInfo suite L HPKE_SS_LABEL kc =
      (u16be L ++ HPKE_VERLABEL ++ HPKE_SEC41LABEL ++ u16be suite.kem_id ++
        HPKE_SS_LABEL) ++ kc := by
  simp [kemLabInfo, kemLabIkm, List.append_assoc]

theorem kemLabInfo_pre_len (suite : hpke_suite_t) (L : Nat) :
    (u16be L ++ HPKE_VERLABEL ++ HPKE_SEC41LABEL ++ u16be suite.kem_id ++
      HPKE_SS_LABEL).length = 27 := by
  simp [u16be, HPKE_VERLABEL, HPKE_SEC41LABEL, HPKE_SS_LABEL]

set_option maxHeartbeats 1000000 in
theorem ssVal_flip_cong (suite : hpke_suite_t) (zzv zzv' : Nat) (kc : List Nat)
    (j b : Nat) (hj : j < kc.length)
    (hz : zzv < 2 ^ 96) (hz' : zzv' < 2 ^ 96)
    (hNp : 12 ≤ (kemRow suite.kem_id).Npriv)
    (hNs1 : 32 ≤ (kemRow suite.kem_id).Nsecret) :
    Int.ModEq ((2 : Int) ^ (8 * (kemRow suite.kem_id).Nsecret))
      ((ssVal suite (encodeBytes (kemRow suite.kem_id).Npriv zzv')
        (kc.set j b) : Nat) : Int)
      (((ssVal suite (encodeBytes (kemRow suite.kem_id).Npriv zzv) kc : Nat) : Int) +
        (2 : Int) ^ 153 * ((zzv' : Int) - (zzv : Int)) +
        (257 : Int) ^ (27 + j) * ((b : Int) - (kc.getD j 0 : Int))) := by
  have hV1 := eaePrkVal_closed suite zzv hz hNp hNs1
  have hV1' := eaePrkVal_closed suite zzv' hz' hNp hNs1
  have hset : kemLabInfo suite (kemRow suite.kem_id).Nsecret HPKE_SS_LABEL
      (kc.set j b) =
      (kemLabInfo suite (kemRow suite.kem_id).Nsecret HPKE_SS_LABEL kc).set
        (27 + j) b := by
    rw [kemLabInfo_split, kemLabInfo_split]
    rw [List.set_append_right _ _ (by rw [kemLabInfo_pre_len]; omega)]
    rw [kemLabInfo_pre_len, show 27 + j - 27 = j from by omega]
  have hjlen : 27 + j < (kemLabInfo suite (kemRow suite.kem_id).Nsecret
      HPKE_SS_LABEL kc).length := by
    rw [kemLabInfo_split, List.length_append, kemLabInfo_pre_len]
    omega
  have hgetD : (kemLabInfo suite (kemRow suite.kem_id).Nsecret
      HPKE_SS_LABEL kc).getD (27 + j) 0 = kc.getD j 0 := by
    rw [kemLabInfo_split]
    rw [List.getD_eq_getElem?_getD,
      List.getElem?_append_right (by rw [kemLabInfo_pre_len]; omega),
      kemLabInfo_pre_len, show 27 + j - 27 = j from by omega,
      ← List.getD_eq_getElem?_getD]
  have hofbset : (ofB 257 (kemLabInfo suite (kemRow suite.kem_id).Nsecret
      HPKE_SS_LABEL (kc.set j b)) : Int) =
      (ofB 257 (kemLabInfo suite (kemRow suite.kem_id).Nsecret
        HPKE_SS_LABEL kc) : Int) +
      (257 : Int) ^ (27 + j) * ((b : Int) - (kc.getD j 0 : Int)) := by
    rw [hset]
    rw [ofB_set_getD 257 _ (27 + j) b hjlen]
    rw [hgetD]
    simp only [Nat.cast_ofNat]
  have hkey : ∀ z : Nat, z < 2 ^ 96 →
      (ssVal suite (encodeBytes (kemRow suite.kem_id).Npriv z) kc : Int) =
      (((2 * (eaePrkVal suite (encodeBytes (kemRow suite.kem_id).Npriv z)) +
        ofB 257 (kemLabInfo suite (kemRow suite.kem_id).Nsecret HPKE_SS_LABEL kc)) %
          2 ^ (8 * (kemRow suite.kem_id).Nsecret) : Nat) : Int) := by
    intro z hzz
    rw [ssVal, expandVal]
    rw [ofB_encodeBytes_pow _ _ (by rw [eaePrkVal]; exact extractVal_lt _ _ _)]
  have hkey' : (ssVal suite (encodeBytes (kemRow suite.kem_id).Npriv zzv')
      (kc.set j b) : Int) =
      (((2 * (eaePrkVal suite (encodeBytes (kemRow suite.kem_id).Npriv zzv')) +
        ofB 257 (kemLabInfo suite (kemRow suite.kem_id).Nsecret HPKE_SS_LABEL
          (kc.set j b))) %
          2 ^ (8 * (kemRow suite.kem_id).Nsecret) : Nat) : Int) := by
    rw [ssVal, expandVal]
    rw [ofB_encodeBytes_pow _ _ (by rw [eaePrkVal]; exact extractVal_lt _ _ _)]
  rw [hkey zzv hz, hkey']
  have hm1 := natmod_cast_modeq
    (2 * (eaePrkVal suite (encodeBytes (kemRow suite.kem_id).Npriv zzv')) +
      ofB 257 (kemLabInfo suite (kemRow suite.kem_id).Nsecret HPKE_SS_LABEL
        (kc.set j b)))
    (2 ^ (8 * (kemRow suite.kem_id).Nsecret))
  have hm2 := natmod_cast_modeq
    (2 * (eaePrkVal suite (encodeBytes (kemRow suite.kem_id).Npriv zzv)) +
      ofB 257 (kemLabInfo suite (kemRow suite.kem_id).Nsecret HPKE_SS_LABEL kc))
    (2 ^ (8 * (kemRow suite.kem_id).Nsecret))
  rw [show (((2 : Nat) ^ (8 * (kemRow suite.kem_id).Nsecret) : Nat) : Int) =
    (2 : Int) ^ (8 * (kemRow suite.kem_id).Nsecret) by push_cast; ring] at hm1 hm2
  apply hm1.trans
  have heq : ((2 * (eaePrkVal suite (encodeBytes (kemRow suite.kem_id).Npriv zzv')) +
      ofB 257 (kemLabInfo suite (kemRow suite.kem_id).Nsecret HPKE_SS_LABEL
        (kc.set j b)) : Nat) : Int) =
      ((2 * (eaePrkVal suite (encodeBytes (kemRow suite.kem_id).Npriv zzv)) +
        ofB 257 (kemLabInfo suite (kemRow suite.kem_id).Nsecret HPKE_SS_LABEL kc)
        : Nat) : Int) +
        (2 : Int) ^ 153 * ((zzv' : Int) - (zzv : Int)) +
        (257 : Int) ^ (27 + j) * ((b : Int) - (kc.getD j 0 : Int)) := by
    push_cast
    rw [hofbset, hV1, hV1']
    push_cast
    ring
  rw [heq]
  apply Int.ModEq.add_right
  apply Int.ModEq.add_right
  exact hm2.symm

theorem secretVal_cong (suite : hpke_suite_t) (ss1 ss2 : List Nat) (pskb : List Nat) :
    Int.ModEq ((2 : Int) ^ (8 * (kdfRow suite.kdf_id).Nh))
      ((secretVal suite ss1 pskb : Nat) : Int)
      (((secretVal suite ss2 pskb : Nat) : Int) +
        ((ofB 256 ss1 : Nat) : Int) - ((ofB 256 ss2 : Nat) : Int)) := by
  have h1 := natmod_cast_modeq
    (ofB 256 ss1 + ofB 256 (fullLabIkm suite HPKE_SECRET_LABEL pskb))
    (2 ^ (8 * (kdfRow suite.kdf_id).Nh))
  have h2 := natmod_cast_modeq
    (ofB 256 ss2 + ofB 256 (fullLabIkm suite HPKE_SECRET_LABEL pskb))
    (2 ^ (8 * (kdfRow suite.kdf_id).Nh))
  rw [show (((2 : Nat) ^ (8 * (kdfRow suite.kdf_id).Nh) : Nat) : Int) =
    (2 : Int) ^ (8 * (kdfRow suite.kdf_id).Nh) by push_cast; ring] at h1 h2
  rw [secretVal, extractVal, secretVal, extractVal]
  apply h1.trans
  have heq : ((ofB 256 ss1 + ofB 256 (fullLabIkm suite HPKE_SECRET_LABEL pskb)
      : Nat) : Int) =
      ((ofB 256 ss2 + ofB 256 (fullLabIkm suite HPKE_SECRET_LABEL pskb)
      : Nat) : Int) + ((ofB 256 ss1 : Nat) : Int) - ((ofB 256 ss2 : Nat) : Int) := by
    push_cast
    ring
  rw [heq]
  apply Int.ModEq.sub_right
  apply Int.ModEq.add_right
  exact h2.symm

theorem keyVal_cong (suite : hpke_suite_t) (sec1 sec2 ksc : List Nat) :
    Int.ModEq ((2 : Int) ^ (8 * (aeadRow suite.aead_id).Nk))
      ((keyVal suite sec1 ksc : Nat) : Int)
      (((keyVal suite sec2 ksc : Nat) : Int) +
        2 * (((ofB 256 sec1 : Nat) : Int) - ((ofB 256 sec2 : Nat) : Int))) := by
  have h1 := natmod_cast_modeq
    (2 * ofB 256 sec1 + ofB 257 (fullLabInfo suite (aeadRow suite.aead_id).Nk
      HPKE_KEY_LABEL ksc))
    (2 ^ (8 * (aeadRow suite.aead_id).Nk))
  have h2 := natmod_cast_modeq
    (2 * ofB 256 sec2 + ofB 257 (fullLabInfo suite (aeadRow suite.aead_id).Nk
      HPKE_KEY_LABEL ksc))
    (2 ^ (8 * (aeadRow suite.aead_id).Nk))
  rw [show (((2 : Nat) ^ (8 * (aeadRow suite.aead_id).Nk) : Nat) : Int) =
    (2 : Int) ^ (8 * (aeadRow suite.aead_id).Nk) by push_cast; ring] at h1 h2
  rw [keyVal, expandVal, keyVal, expandVal]
  apply h1.trans
  have heq : ((2 * ofB 256 sec1 + ofB 257 (fullLabInfo suite
      (aeadRow suite.aead_id).Nk HPKE_KEY_LABEL ksc) : Nat) : Int) =
      ((2 * ofB 256 sec2 + ofB 257 (fullLabInfo suite (aeadRow suite.aead_id).Nk
        HPKE_KEY_LABEL ksc) : Nat) : Int) +
      2 * (((ofB 256 sec1 : Nat) : Int) - ((ofB 256 sec2 : Nat) : Int)) := by
    push_cast
    ring
  rw [heq]
  apply Int.ModEq.add_right
  exact h2.symm

set_option maxHeartbeats 1000000 in
theorem keyVal_flip_ne (suite : hpke_suite_t) (psk : Option (List Nat))
    (ksc : List Nat) (zzv zzv' : Nat) (kc : List Nat) (j b : Nat)
    (hj : j < kc.length) (hb : b < 256) (hkb : kc.getD j 0 < 256)
    (hne : b ≠ kc.getD j 0)
    (hz : zzv < 2 ^ 96) (hz' : zzv' < 2 ^ 96)
    (hNp : 12 ≤ (kemRow suite.kem_id).Npriv)
    (hNs1 : 32 ≤ (kemRow suite.kem_id).Nsecret)
    (hNh1 : 32 ≤ (kdfRow suite.kdf_id).Nh)
    (hNk : 16 ≤ (aeadRow suite.aead_id).Nk) :
    ¬ ((2 : Int) ^ 9 ∣
      ((keyVal suite (secretB suite (encodeBytes (kemRow suite.kem_id).Nsecret
          (ssVal suite (encodeBytes (kemRow suite.kem_id).Npriv zzv')
            (kc.set j b))) psk) ksc : Nat) : Int) -
      ((keyVal suite (secretB suite (encodeBytes (kemRow suite.kem_id).Nsecret
          (ssVal suite (encodeBytes (kemRow suite.kem_id).Npriv zzv) kc))
          psk) ksc : Nat) : Int)) := by
  have hd0 : ((b : Int) - (kc.getD j 0 : Int)) ≠ 0 := by
    intro h
    exact hne (by exact_mod_cast sub_eq_zero.mp h)
  have hdb : ((b : Int) - (kc.getD j 0 : Int)).natAbs ≤ 255 := by omega
  obtain ⟨t, ht7, htd, htnd⟩ := delta_val _ hd0 hdb
  -- shared-secret stage
  have hsscong := ssVal_flip_cong suite zzv zzv' kc j b hj hz hz' hNp hNs1
  rw [show ((ssVal suite (encodeBytes (kemRow suite.kem_id).Npriv zzv) kc
      : Nat) : Int) + (2 : Int) ^ 153 * ((zzv' : Int) - (zzv : Int)) +
      (257 : Int) ^ (27 + j) * ((b : Int) - (kc.getD j 0 : Int)) =
      ((ssVal suite (encodeBytes (kemRow suite.kem_id).Npriv zzv) kc
      : Nat) : Int) + ((2 : Int) ^ 153 * ((zzv' : Int) - (zzv : Int)) +
      (257 : Int) ^ (27 + j) * ((b : Int) - (kc.getD j 0 : Int))) from by ring]
    at hsscong
  have hndss : ¬ ((2 : Int) ^ (t + 1) ∣
      ((2 : Int) ^ 153 * ((zzv' : Int) - (zzv : Int)) +
       (257 : Int) ^ (27 + j) * ((b : Int) - (kc.getD j 0 : Int)))) := by
    intro h
    apply not_dvd_term t (27 + j) _ htnd
    have hd1 : (2 : Int) ^ (t + 1) ∣
        (2 : Int) ^ 153 * ((zzv' : Int) - (zzv : Int)) :=
      dvd_mul_of_dvd_left (pow_dvd_pow 2 (by omega)) _
    have h4 := dvd_sub h hd1
    have h5 : (2 : Int) ^ 153 * ((zzv' : Int) - (zzv : Int)) +
        (257 : Int) ^ (27 + j) * ((b : Int) - (kc.getD j 0 : Int)) -
        (2 : Int) ^ 153 * ((zzv' : Int) - (zzv : Int)) =
        (257 : Int) ^ (27 + j) * ((b : Int) - (kc.getD j 0 : Int)) := by ring
    rwa [h5] at h4
  have hchain1 := chain_step (8 * (kemRow suite.kem_id).Nsecret) (t + 1) _ _ _
    (by omega) hsscong hndss
  -- secret stage
  have hsec := secretVal_cong suite
    (encodeBytes (kemRow suite.kem_id).Nsecret
      (ssVal suite (encodeBytes (kemRow suite.kem_id).Npriv zzv') (kc.set j b)))
    (encodeBytes (kemRow suite.kem_id).Nsecret
      (ssVal suite (encodeBytes (kemRow suite.kem_id).Npriv zzv) kc))
    (psk.getD [])
  rw [ofB_encodeBytes_pow _ _ (by rw [ssVal]; exact expandVal_lt _ _ _),
      ofB_encodeBytes_pow _ _ (by rw [ssVal]; exact expandVal_lt _ _ _)] at hsec
  rw [show ∀ (a d1 d2 : Int), a + d1 - d2 = a + (d1 - d2) from by intros; ring]
    at hsec
  have hchain2 := chain_step (8 * (kdfRow suite.kdf_id).Nh) (t + 1) _ _ _
    (by omega) hsec hchain1
  -- key stage
  have hkey := keyVal_cong suite
    (secretB suite (encodeBytes (kemRow suite.kem_id).Nsecret
      (ssVal suite (encodeBytes (kemRow suite.kem_id).Npriv zzv') (kc.set j b)))
      psk)
    (secretB suite (encodeBytes (kemRow suite.kem_id).Nsecret
      (ssVal suite (encodeBytes (kemRow suite.kem_id).Npriv zzv) kc)) psk)
    ksc
  rw [secretB, secretB] at hkey
  rw [ofB_encodeBytes_pow _ _ (by rw [secretVal]; exact extractVal_lt _ _ _),
      ofB_encodeBytes_pow _ _ (by rw [secretVal]; exact extractVal_lt _ _ _)]
    at hkey
  have hndkey : ¬ ((2 : Int) ^ (t + 2) ∣
      2 * (((secretVal suite (encodeBytes (kemRow suite.kem_id).Nsecret
        (ssVal suite (encodeBytes (kemRow suite.kem_id).Npriv zzv') (kc.set j b)))
        (psk.getD []) : Nat) : Int) -
        ((secretVal suite (encodeBytes (kemRow suite.kem_id).Nsecret
        (ssVal suite (encodeBytes (kemRow suite.kem_id).Npriv zzv) kc))
        (psk.getD []) : Nat) : Int))) := by
    intro h
    apply hchain2
    have h2 : (2 : Int) ^ (t + 2) = 2 * 2 ^ (t + 1) := by
      rw [pow_succ]
      ring
    rw [h2] at h
    exact (mul_dvd_mul_iff_left (by norm_num : (2 : Int) ≠ 0)).mp h
  have hchain3 := chain_step (8 * (aeadRow suite.aead_id).Nk) (t + 2) _ _ _
    (by omega) hkey hndkey
  intro h
  apply hchain3
  exact dvd_trans (pow_dvd_pow 2 (by omega)) h

theorem aeadTagVal_lt (key aad body : List Nat) :
    aeadTagVal key aad body < 2 ^ 128 :=
  Nat.mod_lt _ (by positivity)

theorem dhPub_lt (sk : Nat) : dhPub sk < 2 ^ 96 :=
  Nat.mod_lt _ (by rw [DH_MOD]; positivity)

theorem dhDerive_lt (sk pk : Nat) : dhDerive sk pk < 2 ^ 96 :=
  Nat.mod_lt _ (by rw [DH_MOD]; positivity)

theorem mul_mod_mod (a c n : Nat) : (a * (c % n)) % n = a * c % n := by
  rw [Nat.mul_comm, Nat.mod_mul_mod, Nat.mul_comm]

theorem dh_comm (a bb : Nat) : dhDerive a (dhPub bb) = dhDerive bb (dhPub a) := by
  rw [dhDerive, dhDerive, dhPub, dhPub]
  rw [mul_mod_mod, mul_mod_mod]
  ring_nf

theorem aeadEncBody_mem_lt (key iv clear : List Nat) :
    ∀ x ∈ aeadEncBody key iv clear, x < 256 := by
  intro x hx
  simp only [aeadEncBody, List.mem_map] at hx
  obtain ⟨i, _, heq⟩ := hx
  omega

theorem getD_append_left (l1 l2 : List Nat) (i : Nat) (h : i < l1.length) :
    (l1 ++ l2).getD i 0 = l1.getD i 0 := by
  rw [List.getD_eq_getElem?_getD, List.getD_eq_getElem?_getD,
    List.getElem?_append_left h]

theorem getD_append_right (l1 l2 : List Nat) (i : Nat) (h : l1.length ≤ i) :
    (l1 ++ l2).getD i 0 = l2.getD (i - l1.length) 0 := by
  rw [List.getD_eq_getElem?_getD, List.getD_eq_getElem?_getD,
    List.getElem?_append_right h]

theorem set_ne_of_getD (l : List Nat) (k x : Nat) (hk : k < l.length)
    (hx : x ≠ l.getD k 0) : l.set k x ≠ l := by
  intro h
  apply hx
  have := congrArg (fun t => List.getD t k 0) h
  simpa [List.getD_eq_getElem?_getD, List.getElem?_set_self hk] using this

theorem getD_lt (l : List Nat) (i : Nat) (h : ∀ x ∈ l, x < 256) :
    l.getD i 0 < 256 := by
  rcases Nat.lt_or_ge i l.length with hlt | hge
  · rw [List.getD_eq_getElem l 0 hlt]
    exact h _ (List.getElem_mem hlt)
  · rw [List.getD_eq_default l 0 hge]
    norm_num

/-! ## Theorems: PACKET reader evaluation -/

theorem Pkt.getNet2_cons (b0 b1 : Nat) (rest : List Nat) :
    Pkt.getNet2 ⟨b0 :: b1 :: rest⟩ = some (b0 * 256 + b1, ⟨rest⟩) := by
  simp [Pkt.getNet2]

theorem Pkt.getLenPrefixed2_cons (b0 b1 : Nat) (rest : List Nat) :
    Pkt.getLenPrefixed2 ⟨b0 :: b1 :: rest⟩ =
      if b0 * 256 + b1 ≤ rest.length
      then some (⟨rest.take (b0 * 256 + b1)⟩, ⟨rest.drop (b0 * 256 + b1)⟩)
      else none := by
  simp [Pkt.getLenPrefixed2, Pkt.getNet2_cons]

theorem echParseLoop_succ (fuel : Nat) (pkt : Pkt) (te : List ECHConfig)
    (remaining not_to_consume : Nat) :
    echParseLoop (fuel + 1) pkt te remaining not_to_consume =
      if ¬ remaining > not_to_consume then some (te, pkt)
      else
        (pkt.getNet2).bind (fun verp =>
          (verp.2.getNet2).bind (fun clp =>
            if (clp.1 + UINT_MOD - 2) % UINT_MOD > clp.2.remaining then none
            else if verp.1 ≠ ECH_DRAFT_09_VERSION then
              (clp.2.copyBytes clp.1).bind (fun skip =>
                echParseLoop fuel skip.2 te clp.2.remaining not_to_consume)
            else
              (echParseBody clp.2).bind (fun ecp =>
                echParseLoop fuel ecp.2 (te ++ [ecp.1]) ecp.2.remaining
                  not_to_consume))) := rfl

/-! ## Theorems: evaluation of the parser on the public_name family -/

theorem c7body (pn : List Nat) (hn : 2 ≤ pn.length ∧ pn.length ≤ 255) :
    echParseBody ⟨pn.length / 256 :: pn.length % 256 :: (pn ++ c7tail)⟩ =
      some (mkC7rec pn, ⟨[]⟩) := by
  rw [echParseBody, Pkt.getLenPrefixed2_cons, Nat.div_add_mod']
  rw [if_pos (by simp [c7tail, c7pub])]
  rw [Option.some_bind]
  simp only [List.take_left, List.drop_left, Pkt.remaining, Pkt.mk.injEq]
  rw [if_neg (by simp only [TLSEXT_MAXLEN_host_name]; omega)]
  simp only [c7tail, c7pub, List.cons_append, List.nil_append, Pkt.getLenPrefixed2_cons]
  norm_num
  simp only [Pkt.getNet2_cons, Option.some_bind, Pkt.getLenPrefixed2_cons]
  norm_num [echSuiteLoop, echExtLoop, ECH_CIPHER_LEN, Pkt.remaining, Pkt.copyBytes, mkC7rec]
  simp [Pkt.getNet2_cons, Option.some_bind, Pkt.getLenPrefixed2_cons, echExtLoop,
    Pkt.remaining, c7pub, ECH_MAX_RRVALUE_LEN]

theorem c7body_neg (pn : List Nat) (hbad : pn.length ≤ 1 ∨ pn.length > 255) :
    echParseBody ⟨pn.length / 256 :: pn.length % 256 :: (pn ++ c7tail)⟩ = none := by
  rw [echParseBody, Pkt.getLenPrefixed2_cons, Nat.div_add_mod']
  rw [if_pos (by simp [c7tail, c7pub])]
  rw [Option.some_bind]
  simp only [List.take_left, List.drop_left, Pkt.remaining]
  rw [if_pos (by simpa only [TLSEXT_MAXLEN_host_name] using hbad)]

theorem c7parse_pos (pn : List Nat) (h : pn.length ≤ 457)
    (hn : 2 ≤ pn.length ∧ pn.length ≤ 255) :
    ECHConfigs_from_binary (mkC7 pn) = some (⟨mkC7 pn, [mkC7rec pn]⟩, 0) := by
  have hlen : (mkC7 pn).length = pn.length + 54 := by
    simp [mkC7, c7tail, c7pub]
  rw [ECHConfigs_from_binary]
  rw [hlen]
  rw [if_neg (by simp only [ECH_MIN_ECHCONFIG_LEN]; omega)]
  rw [if_neg (by simp only [ECH_MAX_ECHCONFIG_LEN]; omega)]
  have hmk : mkC7 pn =
      (pn.length + 52) / 256 :: (pn.length + 52) % 256 :: 255 :: 9 ::
      (pn.length + 48) / 256 :: (pn.length + 48) % 256 ::
      pn.length / 256 :: pn.length % 256 :: (pn ++ c7tail) := by
    simp [mkC7, c7tail, c7pub]
  rw [hmk, Pkt.getNet2_cons, Option.some_bind, Nat.div_add_mod']
  rw [if_neg (by simp only [ECH_MIN_ECHCONFIG_LEN]; omega)]
  have hrem : (Pkt.mk (255 :: 9 :: (pn.length + 48) / 256 :: (pn.length + 48) % 256 ::
      pn.length / 256 :: pn.length % 256 :: (pn ++ c7tail))).remaining =
      pn.length + 52 := by
    simp [Pkt.remaining, c7tail, c7pub]
  rw [show ECH_MAX_ECHCONFIG_LEN = 511 + 1 from rfl, echParseLoop_succ, hrem]
  rw [if_neg (by push_neg; omega)]
  rw [Pkt.getNet2_cons, Option.some_bind, Pkt.getNet2_cons, Option.some_bind,
    Nat.div_add_mod']
  have hrem2 : (Pkt.mk (pn.length / 256 :: pn.length % 256 :: (pn ++ c7tail))).remaining =
      pn.length + 48 := by
    simp [Pkt.remaining, c7tail, c7pub]
  rw [hrem2]
  rw [if_neg (by simp only [UINT_MOD]; omega)]
  rw [if_neg (by norm_num [ECH_DRAFT_09_VERSION])]
  rw [c7body pn hn, Option.some_bind]
  rw [show (511 : Nat) = 510 + 1 from rfl, echParseLoop_succ]
  rw [if_pos (by simp [Pkt.remaining])]
  rw [Option.some_bind]
  rw [if_neg (by simp [Pkt.remaining])]
  simp [Pkt.remaining, mkC7, c7tail, c7pub]

theorem c7parse_neg (pn : List Nat) (h : pn.length ≤ 457)
    (hbad : pn.length ≤ 1 ∨ pn.length > 255) :
    ECHConfigs_from_binary (mkC7 pn) = none := by
  have hlen : (mkC7 pn).length = pn.length + 54 := by
    simp [mkC7, c7tail, c7pub]
  rw [ECHConfigs_from_binary]
  rw [hlen]
  rw [if_neg (by simp only [ECH_MIN_ECHCONFIG_LEN]; omega)]
  rw [if_neg (by simp only [ECH_MAX_ECHCONFIG_LEN]; omega)]
  have hmk : mkC7 pn =
      (pn.length + 52) / 256 :: (pn.length + 52) % 256 :: 255 :: 9 ::
      (pn.length + 48) / 256 :: (pn.length + 48) % 256 ::
      pn.length / 256 :: pn.length % 256 :: (pn ++ c7tail) := by
    simp [mkC7, c7tail, c7pub]
  rw [hmk, Pkt.getNet2_cons, Option.some_bind, Nat.div_add_mod']
  rw [if_neg (by simp only [ECH_MIN_ECHCONFIG_LEN]; omega)]
  have hrem : (Pkt.mk (255 :: 9 :: (pn.length + 48) / 256 :: (pn.length + 48) % 256 ::
      pn.length / 256 :: pn.length % 256 :: (pn ++ c7tail))).remaining =
      pn.length + 52 := by
    simp [Pkt.remaining, c7tail, c7pub]
  rw [show ECH_MAX_ECHCONFIG_LEN = 511 + 1 from rfl, echParseLoop_succ, hrem]
  rw [if_neg (by push_neg; omega)]
  rw [Pkt.getNet2_cons, Option.some_bind, Pkt.getNet2_cons, Option.some_bind,
    Nat.div_add_mod']
  have hrem2 : (Pkt.mk (pn.length / 256 :: pn.length % 256 :: (pn ++ c7tail))).remaining =
      pn.length + 48 := by
    simp [Pkt.remaining, c7tail, c7pub]
  rw [hrem2]
  rw [if_neg (by simp only [UINT_MOD]; omega)]
  rw [if_neg (by norm_num [ECH_DRAFT_09_VERSION])]
  rw [c7body_neg pn hbad]
  rfl

/-! ## Theorems: suite registry, ascii-hex, AEAD length handling -/

/-- C8: hpke_suite_check returns 1 (supported) if and only if all three
identifiers resolve to populated, non-sentinel rows of their tables,
i.e. kem_id is one of 0x0010, 0x0011, 0x0012, 0x0020, 0x0021, kdf_id is
one of 0x0001..0x0003 and aead_id is one of 0x0001..0x0003. -/
theorem claim_C8_suite_check (s : hpke_suite_t) :
    hpke_suite_check s = 1 ↔
      ((s.kem_id = 0x0010 ∨ s.kem_id = 0x0011 ∨ s.kem_id = 0x0012 ∨
        s.kem_id = 0x0020 ∨ s.kem_id = 0x0021) ∧
       (s.kdf_id = 0x0001 ∨ s.kdf_id = 0x0002 ∨ s.kdf_id = 0x0003) ∧
       (s.aead_id = 0x0001 ∨ s.aead_id = 0x0002 ∨ s.aead_id = 0x0003)) := by
  rcases s with ⟨kem, kdf, aead⟩
  simp [hpke_suite_check, hpke_kem_tab, hpke_kdf_tab, hpke_aead_tab]
  tauto

/-- C6: the specification requires ascii-hex input with an odd number of
nibbles to be rejected, but the guard in hpke_ah_decode is written
ahlen%1, which is always zero; the three-nibble input "abc" is accepted
and decodes to the single byte 0xab, silently dropping the last nibble. -/
theorem claim_C6_ah_decode_odd_accepted :
    hpke_ah_decode 3 [97, 98, 99] = some [0xab] := by decide

/-- C5: the specification requires AEAD open to fail with
AEAD_BAD_LENGTH when the ciphertext is shorter than the 16-octet tag,
before any decryption is attempted; hpke_aead_dec has no such check, the
size_t subtraction cipherlen-taglen wraps around, and the decrypt step
reads out of bounds (here: a 3-byte ciphertext under AES-128-GCM). -/
theorem claim_C5_aead_short_cipher :
    hpke_aead_dec ⟨0x0020, 0x0001, 0x0001⟩ (encodeBytes 16 7) (encodeBytes 12 9)
      [1, 2] [5, 6, 7] 1024 = .error .oobRead ∧
    HpkeErr.oobRead ≠ HpkeErr.badLength := by
  exact ⟨rfl, by decide⟩

/-- C3: the specification requires records of unknown version to be
consumed and skipped without a parse error, with the known-version
records still returned.  The skip path of ECHConfigs_from_binary leaves
the loop variable remaining stale (continue is executed before the
variable is refreshed), so after skipping a record that ends the list
the loop runs once more on an exhausted packet and the whole parse
fails: the list c3good holding one known-version record parses, but
c3mixed, which appends one well-formed unknown-version (0xff08) record
to it, is rejected instead of yielding the known record. -/
theorem claim_C3_trailing_unknown_version :
    ECHConfigs_from_binary c3good = some (⟨c3good, [c3rec1Parsed]⟩, 0) ∧
    ECHConfigs_from_binary c3mixed = none := by
  exact ⟨by decide, by decide⟩

/-- C7 (amended): on an otherwise well-formed single-record ECHConfigs
whose public_name is pn, parsing accepts exactly when the public_name
length is between 2 and 255 octets; the source check public_name_len<=1
also rejects length 1, which the original claim said is accepted. -/
theorem claim_C7_public_name_bounds (pn : List Nat) (h : pn.length ≤ 457) :
    ECHConfigs_from_binary (mkC7 pn) =
      if 2 ≤ pn.length ∧ pn.length ≤ 255
      then some (⟨mkC7 pn, [mkC7rec pn]⟩, 0) else none := by
  by_cases hn : 2 ≤ pn.length ∧ pn.length ≤ 255
  · rw [if_pos hn]
    exact c7parse_pos pn h hn
  · rw [if_neg hn]
    exact c7parse_neg pn h (by omega)

/-- C7 witness: a two-octet public_name is accepted. -/
theorem claim_C7_public_name_bounds_witness :
    ([97, 98] : List Nat).length ≤ 457 ∧
    ECHConfigs_from_binary (mkC7 [97, 98]) =
      some (⟨mkC7 [97, 98], [mkC7rec [97, 98]]⟩, 0) := by
  refine ⟨by decide, ?_⟩
  have h := claim_C7_public_name_bounds [97, 98] (by decide)
  simpa using h

/-- C7 counterexample: the claim as stated accepts public_name lengths
from 1 octet up, but a record with a single-octet public_name is
rejected by the parser. -/
theorem claim_C7_len1_rejected :
    ECHConfigs_from_binary (mkC7 [97]) = none := by decide

/-- Compressed-out extensions are skipped and the rest copied once the
synthetic extension has been emitted (compression_done = 1). -/
theorem echEncodeExtsLoop_done (outer_only : List Nat) (raws : List RAW_EXTENSION) :
    echEncodeExtsLoop outer_only raws true =
      (((raws.filter (fun r => r.present)).filter
        (notCompressed outer_only)).map rawExtBytes).flatten := by
  induction raws with
  | nil => rfl
  | cons r rest ih =>
      by_cases hp : r.present
      · by_cases hc : r.type ∈ outer_only
        · simp [echEncodeExtsLoop, notCompressed, hp, hc, ih]
        · simp [echEncodeExtsLoop, notCompressed, hp, hc, ih]
      · simp [echEncodeExtsLoop, notCompressed, hp, ih, List.filter_cons]

/-- Shape of the extension region produced by the encode loop: the
synthetic outer_extensions extension appears exactly once, at the
position of the first present compressed extension. -/
theorem echEncodeExtsLoop_spec (outer_only : List Nat) (raws : List RAW_EXTENSION) :
    echEncodeExtsLoop outer_only raws false = encodeExtsSpec outer_only raws := by
  induction raws with
  | nil => rfl
  | cons r rest ih =>
      by_cases hp : r.present
      · by_cases hc : r.type ∈ outer_only
        · simp [echEncodeExtsLoop, encodeExtsSpec, notCompressed, hp, hc,
            echEncodeExtsLoop_done, List.filter_cons, List.takeWhile, List.dropWhile]
        · simp only [echEncodeExtsLoop, encodeExtsSpec, notCompressed,
            List.filter_cons] at ih ⊢
          simp [hp, hc, ih, List.takeWhile, List.dropWhile, notCompressed]
      · simp only [echEncodeExtsLoop, encodeExtsSpec, notCompressed,
          List.filter_cons] at ih ⊢
        simp [hp, ih, notCompressed]

/-- C2 (amended): ech_encode_inner emits the synthetic outer_extensions
extension exactly once, at the position of the first present compressed
extension — not after processing all extensions — and writes
2*n_outer_only as the 16-bit extension length, followed directly by the
compressed types as its value (there is no leading 2*N octet inside the
value).  The encoded inner is the ClientHello assembled around the
specification-shaped extension region encodeExtsSpec. -/
theorem claim_C2_outer_exts_at_first_compressed (client_version : Nat)
    (client_random cipherBytes : List Nat) (raws : List RAW_EXTENSION)
    (outer_only : List Nat) :
    ech_encode_inner true client_version client_random cipherBytes raws
        outer_only =
      some ([SSL3_MT_CLIENT_HELLO] ++
        encode3 (WPACKET_put_u16 client_version ++ client_random ++ [0] ++
          WPACKET_put_u16 cipherBytes.length ++ cipherBytes ++ [1, 0] ++
          WPACKET_put_u16 (encodeExtsSpec outer_only raws).length ++
          encodeExtsSpec outer_only raws).length ++
        (WPACKET_put_u16 client_version ++ client_random ++ [0] ++
          WPACKET_put_u16 cipherBytes.length ++ cipherBytes ++ [1, 0] ++
          WPACKET_put_u16 (encodeExtsSpec outer_only raws).length ++
          encodeExtsSpec outer_only raws)) := by
  rw [ech_encode_inner]
  simp [echEncodeExtsLoop_spec]

/-- C2 counterexample: in the S4 scenario (extensions supported_groups,
key_share, signature_algorithms, server_name; policy compressing
supported_groups and signature_algorithms) the marking pass collects
outer_only = [0x0a, 0x0d], and the encoded inner's extension region
starts — not ends — with the outer_extensions extension, whose value is
00 0a 00 0d (length field 4), while the last extension is server_name;
the claim expected the last extension to be outer_extensions with body
04 00 0a 00 0d. -/
theorem claim_C2_s4_outer_exts_not_last :
    c2mark = [0x0a, 0x0d] ∧
    (ech_encode_inner true 0x0303 c2rnd [0, 19] c2raws c2mark).map
        (fun l => extsRegionList 100 (l.drop 47)) =
      some (some [(TLSEXT_TYPE_outer_extensions, [0, 10, 0, 13]),
                  (0x33, [1, 2, 3]), (0x00, [7, 7])]) ∧
    ([(TLSEXT_TYPE_outer_extensions, [0, 10, 0, 13]),
      (0x33, [1, 2, 3]), (0x00, [7, 7])] : List (Nat × List Nat)).getLast? ≠
      some (TLSEXT_TYPE_outer_extensions, [4, 0, 10, 0, 13]) := by
  refine ⟨by decide, by decide, by decide⟩

/-- C4 (amended): a ech_swaperoo run that passes its pointer and
transcript checks sets ech_success to 1 on both the inner-contents
session (now current) and the outer-contents session (now its outer_s)
when the re-run server-name callback accepts, and when the callback
rejects it clears ech_success on both sides and reports failure; the
attempted and done flags are left untouched on both (the source lines
setting them are commented out), as the record equalities show — every
field other than the transport/init/statem/debug handles, the
transcript and ech_success keeps its pre-swap value. -/
theorem claim_C4_swaperoo_success_flags (s inp : SSLx) (facc frej : SSLx → Nat)
    (htr : ¬ (s.handshake_buffer.length > 0 ∧
              s.handshake_buffer.getD 0 0 = SSL3_MT_CLIENT_HELLO ∧
              headMsgLen s.handshake_buffer > s.handshake_buffer.length))
    (hacc : ∀ x, facc x = 1) (hrej : ∀ x, frej x ≠ 1) :
    ech_swaperoo s (some inp) true facc =
      (1, swapResult inp s 1, some { s with ech_success := 1 }) ∧
    ech_swaperoo s (some inp) true frej =
      (0, swapResult inp s 0, some { s with ech_success := 0 }) := by
  simp only [List.getD, List.get?_eq_getElem?] at htr
  constructor
  · rw [ech_swaperoo]
    simp [htr, hacc, swapResult]
  · rw [ech_swaperoo]
    simp [htr, hrej, swapResult]

/-- C4 witness: the amended statement evaluated on the concrete swap
scenario with an accepting and a rejecting callback. -/
theorem claim_C4_swaperoo_success_flags_witness :
    ech_swaperoo c4outer (some c4inner) true (fun _ => 1) =
      (1, swapResult c4inner c4outer 1, some { c4outer with ech_success := 1 }) ∧
    ech_swaperoo c4outer (some c4inner) true (fun _ => 0) =
      (0, swapResult c4inner c4outer 0, some { c4outer with ech_success := 0 }) :=
  claim_C4_swaperoo_success_flags c4outer c4inner (fun _ => 1) (fun _ => 0)
    (by decide) (fun x => rfl) (fun x => by simp)

/-- C4 counterexample: the claim as stated requires the attempted and
done flags to be set on both sessions after a successful swap; on the
concrete scenario the swap succeeds (result 1, ech_success 1 on both)
yet ech_done remains 0 on both sides, because the code that would set
attempted/done is commented out in ech_swaperoo. -/
theorem claim_C4_done_flag_not_set :
    (ech_swaperoo c4outer (some c4inner) true (fun _ => 1)).1 = 1 ∧
    (ech_swaperoo c4outer (some c4inner) true (fun _ => 1)).2.1.ech_success = 1 ∧
    (ech_swaperoo c4outer (some c4inner) true (fun _ => 1)).2.2.map
        (fun p => p.ech_success) = some 1 ∧
    (ech_swaperoo c4outer (some c4inner) true (fun _ => 1)).2.1.ech_done = 0 ∧
    (ech_swaperoo c4outer (some c4inner) true (fun _ => 1)).2.2.map
        (fun p => p.ech_done) = some 0 := by
  refine ⟨rfl, rfl, rfl, rfl, rfl⟩

/-- C10: SSL_ech_add and SSL_CTX_ech_add reject (returning 0) every
input whose length is zero or at least ECH_MAX_RRVALUE_LEN — the guard
sits at the top of local_ech_add, before format detection or decoding —
and the connection or context ECH state is returned unchanged. -/
theorem claim_C10_add_rejects_bad_lengths (con : SSLConn) (ctx : SSLCtxSt)
    (ekfmt eklen : Nat) (ekval : List Nat)
    (h : eklen = 0 ∨ eklen ≥ ECH_MAX_RRVALUE_LEN) :
    SSL_ech_add con ekfmt eklen ekval = (0, con) ∧
    SSL_CTX_ech_add ctx ekfmt eklen ekval = (0, ctx) := by
  have hl : local_ech_add ekfmt eklen ekval = none := by
    rw [local_ech_add]
    by_cases h0 : eklen = 0
    · rw [if_pos h0]
    · rw [if_neg h0, if_pos (by omega)]
  constructor
  · rw [SSL_ech_add, hl]
  · rw [SSL_CTX_ech_add, hl]

/-- C10 witness: an input of length 2000 is rejected and the states
are unchanged. -/
theorem claim_C10_add_rejects_bad_lengths_witness :
    SSL_ech_add ⟨none, 0⟩ ECH_FMT_BIN 2000 [1, 2, 3] = (0, ⟨none, 0⟩) ∧
    SSL_CTX_ech_add ⟨none, 0⟩ ECH_FMT_BIN 2000 [1, 2, 3] = (0, ⟨none, 0⟩) :=
  claim_C10_add_rejects_bad_lengths ⟨none, 0⟩ ⟨none, 0⟩ ECH_FMT_BIN 2000 [1, 2, 3]
    (by decide)

set_option maxHeartbeats 2000000 in
/-- C1: for every supported ciphersuite, in HPKE Base mode, for every
recipient key pair (skR, pkR = encoded dhPub skR), ephemeral scalar,
plaintext, aad and info within the library's 1-kilobyte buffer bounds,
decrypting the (enc, cipher) pair produced by hpke_enc with hpke_dec and
skR returns the original plaintext; and flipping any single byte of the
ciphertext (body or appended tag), of the aad, or of enc makes hpke_dec
fail with the AEAD_BAD_TAG error.  The EVP crypto primitives are the
spec-modelled ideal ones defined above. -/
theorem claim_C1_roundtrip_and_tamper
    (suite : hpke_suite_t) (hs : hpke_suite_check suite = 1)
    (skR skE : Nat) (clear aad info : List Nat)
    (hclear : ∀ x ∈ clear, x < 256) (haad : ∀ x ∈ aad, x < 256)
    (hclen : clear.length ≤ 1008) (hinfo : info.length ≤ 900)
    (pub enc cipher : List Nat)
    (hpub : pub = encodeBytes (kemRow suite.kem_id).Npk (dhPub skR))
    (henc : hpke_enc HPKE_MODE_BASE suite none 0 none pub [] clear aad info skE
      1024 1024 = .ok (enc, cipher))
    (i1 b1 : Nat) (hi1 : i1 < cipher.length) (hb1 : b1 < 256)
    (hne1 : b1 ≠ cipher.getD i1 0)
    (i2 b2 : Nat) (hi2 : i2 < aad.length) (hb2 : b2 < 256)
    (hne2 : b2 ≠ aad.getD i2 0)
    (i3 b3 : Nat) (hi3 : i3 < enc.length) (hb3 : b3 < 256)
    (hne3 : b3 ≠ enc.getD i3 0) :
    hpke_dec HPKE_MODE_BASE suite none 0 none [] [] (some skR) enc cipher aad
      info 1024 = .ok clear ∧
    hpke_dec HPKE_MODE_BASE suite none 0 none [] [] (some skR) enc
      (cipher.set i1 b1) aad info 1024 = .error .badTag ∧
    hpke_dec HPKE_MODE_BASE suite none 0 none [] [] (some skR) enc cipher
      (aad.set i2 b2) info 1024 = .error .badTag ∧
    hpke_dec HPKE_MODE_BASE suite none 0 none [] [] (some skR)
      (enc.set i3 b3) cipher aad info 1024 = .error .badTag := by
  obtain ⟨hkemid, hkdfid, haeadid⟩ := suite_check_ids suite hs
  obtain ⟨hkemh, hNs1, hNs2, hNpk1, hNpk2, hNp1, hNp2⟩ := kem_facts _ hkemid
  obtain ⟨hkdfh, hNh1, hNh2⟩ := kdf_facts _ hkdfid
  obtain ⟨hainit, htag, hNn, hNk1, hNk2⟩ := aead_facts _ haeadid
  have hpublen : pub.length ≤ 200 := by
    rw [hpub, encodeBytes_length]; omega
  rw [hpke_enc_base_eval suite none none 0 pub [] clear aad info skE 1024 1024
    hs _ hkdfh rfl (by omega) hkemh (by omega) (by omega) ⟨by omega, by omega⟩
    hNn htag hainit hpublen (by simp) (by simp) hinfo hclen (by omega) (by omega)]
    at henc
  simp only [Except.ok.injEq, Prod.mk.injEq] at henc
  obtain ⟨hencE, hciph⟩ := henc
  subst hencE
  subst hciph
  subst hpub
  set E := encodeBytes (kemRow suite.kem_id).Npk (dhPub skE) with hE
  set P := encodeBytes (kemRow suite.kem_id).Npk (dhPub skR) with hP
  set NK := deriveNK suite HPKE_MODE_BASE none none info
    (dhDerive skE (ofB 256 P)) (E ++ P) with hNK
  set body := aeadEncBody NK.2 NK.1 clear with hbody
  set tagB := encodeBytes 16 (aeadTagVal NK.2 aad body) with htagB
  have hofbE : ofB 256 E = dhPub skE :=
    ofB_encodeBytes_pow _ _ (lt_of_lt_of_le (dhPub_lt skE)
      (Nat.pow_le_pow_right (by norm_num) (by omega)))
  have hofbP : ofB 256 P = dhPub skR :=
    ofB_encodeBytes_pow _ _ (lt_of_lt_of_le (dhPub_lt skR)
      (Nat.pow_le_pow_right (by norm_num) (by omega)))
  have hzz : dhDerive skR (ofB 256 E) = dhDerive skE (ofB 256 P) := by
    rw [hofbE, hofbP, dh_comm]
  have henclen : E.length ≤ 200 := by rw [hE, encodeBytes_length]; omega
  have hblen : body.length = clear.length := by
    rw [hbody, aeadEncBody_length]
  have htlen : tagB.length = 16 := by rw [htagB, encodeBytes_length]
  have hciplen : (body ++ tagB).length = clear.length + 16 := by
    rw [List.length_append, hblen, htlen]
  have hbmem : ∀ x ∈ body, x < 256 := by
    rw [hbody]; exact aeadEncBody_mem_lt _ _ _
  have hidx : (body ++ tagB).length - 16 = body.length := by
    rw [hciplen, hblen]
    omega
  refine ⟨?_, ?_, ?_, ?_⟩
  · rw [hpke_dec_base_eval suite none none 0 E (body ++ tagB) aad info skR 1024
      hs _ hkdfh rfl (by omega) hkemh (by omega) (by omega) ⟨by omega, by omega⟩
      hNn htag hainit henclen (by simp) (by simp) hinfo
      (by rw [hciplen]; omega) (by rw [hciplen]; omega)]
    rw [hzz, ← hNK, hidx, List.take_left, List.drop_left]
    rw [if_neg (by simp [htagB])]
    rw [hbody, aead_roundtrip _ _ clear hclear]
  · by_cases hcase : i1 < body.length
    · have hsetc : (body ++ tagB).set i1 b1 = body.set i1 b1 ++ tagB :=
        List.set_append_left i1 b1 hcase
      rw [hsetc]
      rw [hpke_dec_base_eval suite none none 0 E (body.set i1 b1 ++ tagB) aad
        info skR 1024 hs _ hkdfh rfl (by omega) hkemh (by omega) (by omega)
        ⟨by omega, by omega⟩ hNn htag hainit henclen (by simp) (by simp) hinfo
        (by simp only [List.length_append, List.length_set, htlen, hblen]; omega)
        (by simp only [List.length_append, List.length_set, htlen, hblen]; omega)]
      rw [hzz, ← hNK]
      have hidx2 : (body.set i1 b1 ++ tagB).length - 16 = (body.set i1 b1).length := by
        simp only [List.length_append, List.length_set, htlen]
        omega
      rw [hidx2, List.take_left, List.drop_left]
      rw [if_pos]
      have hLset : encodeBytes 2 aad.length ++ aad ++ body.set i1 b1 =
          (encodeBytes 2 aad.length ++ aad ++ body).set (2 + aad.length + i1) b1 := by
        rw [List.set_append_right _ _ (by
          simp only [List.length_append, encodeBytes_length]; omega)]
        congr 1
        simp only [List.length_append, encodeBytes_length]
        congr 1
        omega
      have hjL : 2 + aad.length + i1 <
          (encodeBytes 2 aad.length ++ aad ++ body).length := by
        simp only [List.length_append, encodeBytes_length]
        omega
      have hgetL : (encodeBytes 2 aad.length ++ aad ++ body).get
          ⟨2 + aad.length + i1, hjL⟩ = body.getD i1 0 := by
        rw [List.get_eq_getElem, ← List.getD_eq_getElem _ 0]
        rw [getD_append_right _ _ _ (by
          simp only [List.length_append, encodeBytes_length]; omega)]
        simp only [List.length_append, encodeBytes_length]
        congr 1
        omega
      have hneval := tagVal_ne_single (ofB 256 NK.2)
        (encodeBytes 2 aad.length ++ aad ++ body)
        (encodeBytes 2 aad.length ++ aad ++ body.set i1 b1)
        (2 + aad.length + i1) b1 hjL hLset hb1
        (by rw [hgetL]
            rcases Nat.lt_or_ge i1 body.length with hlt | hge
            · have : body.getD i1 0 = body[i1] := List.getD_eq_getElem body 0 hlt
              rw [this]
              exact hbmem _ (List.getElem_mem hlt)
            · omega)
        (by rw [hgetL]
            have : (body ++ tagB).getD i1 0 = body.getD i1 0 :=
              getD_append_left _ _ _ hcase
            rw [← this]
            exact hne1)
      intro hcon
      apply hneval
      have hval1 : aeadTagVal NK.2 aad (body.set i1 b1) =
          aeadTagVal NK.2 aad body := by
        have := congrArg (ofB 256) hcon.symm
        rw [htagB, ofB_encodeBytes_pow _ _ (by
              calc aeadTagVal NK.2 aad (body.set i1 b1) < 2 ^ 128 :=
                aeadTagVal_lt _ _ _
              _ ≤ 2 ^ (8 * 16) := by norm_num),
            ofB_encodeBytes_pow _ _ (by
              calc aeadTagVal NK.2 aad body < 2 ^ 128 := aeadTagVal_lt _ _ _
              _ ≤ 2 ^ (8 * 16) := by norm_num)] at this
        exact this
      rw [aeadTagVal, aeadTagVal] at hval1
      exact hval1
    · push_neg at hcase
      have hsetc : (body ++ tagB).set i1 b1 = body ++ tagB.set (i1 - body.length) b1 :=
        List.set_append_right i1 b1 hcase
      rw [hsetc]
      rw [hpke_dec_base_eval suite none none 0 E _ aad info skR 1024 hs _ hkdfh
        rfl (by omega) hkemh (by omega) (by omega) ⟨by omega, by omega⟩ hNn htag
        hainit henclen (by simp) (by simp) hinfo
        (by simp only [List.length_append, List.length_set, htlen, hblen]; omega)
        (by simp only [List.length_append, List.length_set, htlen, hblen]; omega)]
      rw [hzz, ← hNK]
      have hidx3 : (body ++ tagB.set (i1 - body.length) b1).length - 16 =
          body.length := by
        simp only [List.length_append, List.length_set, htlen]
        omega
      rw [hidx3, List.take_left, List.drop_left]
      rw [if_pos]
      have hklt : i1 - body.length < tagB.length := by
        rw [htlen, hblen]
        rw [hciplen] at hi1
        omega
      intro hcon
      apply set_ne_of_getD tagB (i1 - body.length) b1 hklt
        (by
          have : (body ++ tagB).getD i1 0 = tagB.getD (i1 - body.length) 0 :=
            getD_append_right _ _ _ hcase
          rw [← this]
          exact hne1)
      rw [htagB] at hcon ⊢
      exact hcon
  · rw [hpke_dec_base_eval suite none none 0 E (body ++ tagB) (aad.set i2 b2)
      info skR 1024 hs _ hkdfh rfl (by omega) hkemh (by omega) (by omega)
      ⟨by omega, by omega⟩ hNn htag hainit henclen (by simp) (by simp) hinfo
      (by rw [hciplen]; omega) (by rw [hciplen]; omega)]
    rw [hzz, ← hNK, hidx, List.take_left, List.drop_left]
    rw [if_pos]
    have hLset : encodeBytes 2 (aad.set i2 b2).length ++ aad.set i2 b2 ++ body =
        (encodeBytes 2 aad.length ++ aad ++ body).set (2 + i2) b2 := by
      rw [List.length_set]
      rw [show encodeBytes 2 aad.length ++ aad ++ body =
        encodeBytes 2 aad.length ++ (aad ++ body) from by
          rw [List.append_assoc]]
      rw [List.set_append_right _ _ (by rw [encodeBytes_length]; omega)]
      rw [encodeBytes_length, show 2 + i2 - 2 = i2 from by omega]
      rw [List.set_append_left _ _ hi2]
      rw [List.append_assoc]
    have hjL : 2 + i2 < (encodeBytes 2 aad.length ++ aad ++ body).length := by
      simp only [List.length_append, encodeBytes_length]
      omega
    have hgetL : (encodeBytes 2 aad.length ++ aad ++ body).get ⟨2 + i2, hjL⟩ =
        aad.getD i2 0 := by
      rw [List.get_eq_getElem, ← List.getD_eq_getElem _ 0]
      show (encodeBytes 2 aad.length ++ aad ++ body).getD (2 + i2) 0 =
        aad.getD i2 0
      rw [getD_append_left _ _ _ (by
        simp only [List.length_append, encodeBytes_length]; omega)]
      rw [getD_append_right _ _ _ (by rw [encodeBytes_length]; omega)]
      rw [encodeBytes_length, show 2 + i2 - 2 = i2 from by omega]
    have hneval := tagVal_ne_single (ofB 256 NK.2)
      (encodeBytes 2 aad.length ++ aad ++ body)
      (encodeBytes 2 (aad.set i2 b2).length ++ aad.set i2 b2 ++ body)
      (2 + i2) b2 hjL hLset hb2
      (by rw [hgetL]
          have : aad.getD i2 0 = aad[i2] := List.getD_eq_getElem aad 0 hi2
          rw [this]
          exact haad _ (List.getElem_mem hi2))
      (by rw [hgetL]; exact hne2)
    intro hcon
    apply hneval
    have hval1 : aeadTagVal NK.2 (aad.set i2 b2) body = aeadTagVal NK.2 aad body := by
      have := congrArg (ofB 256) hcon.symm
      rw [htagB, ofB_encodeBytes_pow _ _ (by
            calc aeadTagVal NK.2 (aad.set i2 b2) body < 2 ^ 128 :=
              aeadTagVal_lt _ _ _
            _ ≤ 2 ^ (8 * 16) := by norm_num),
          ofB_encodeBytes_pow _ _ (by
            calc aeadTagVal NK.2 aad body < 2 ^ 128 := aeadTagVal_lt _ _ _
            _ ≤ 2 ^ (8 * 16) := by norm_num)] at this
      exact this
    rw [aeadTagVal, aeadTagVal] at hval1
    exact hval1
  · have hkc : E.set i3 b3 ++ P = (E ++ P).set i3 b3 :=
      (List.set_append_left i3 b3 hi3).symm
    rw [hpke_dec_base_eval suite none none 0 (E.set i3 b3) (body ++ tagB) aad
      info skR 1024 hs _ hkdfh rfl (by omega) hkemh (by omega) (by omega)
      ⟨by omega, by omega⟩ hNn htag hainit
      (by rw [List.length_set]; exact henclen) (by simp) (by simp) hinfo
      (by rw [hciplen]; omega) (by rw [hciplen]; omega)]
    rw [hkc, hidx, List.take_left, List.drop_left]
    rw [if_pos]
    have hi3kc : i3 < (E ++ P).length := by
      rw [List.length_append]
      omega
    have hkb3 : (E ++ P).getD i3 0 < 256 := by
      rw [getD_append_left _ _ _ hi3]
      exact getD_lt E i3 (by rw [hE]; exact encodeBytes_mem_lt _ _)
    have hne3kc : b3 ≠ (E ++ P).getD i3 0 := by
      rw [getD_append_left _ _ _ hi3]
      exact hne3
    have hkne := keyVal_flip_ne suite none (ksCtxB suite HPKE_MODE_BASE none
      none info) (dhDerive skE (ofB 256 P))
      (dhDerive skR (ofB 256 (E.set i3 b3))) (E ++ P) i3 b3 hi3kc hb3 hkb3
      hne3kc (dhDerive_lt _ _) (dhDerive_lt _ _) (by omega) hNs1 hNh1 hNk1
    intro hcon
    have hval1 : aeadTagVal (deriveNK suite HPKE_MODE_BASE none none info
        (dhDerive skR (ofB 256 (E.set i3 b3))) ((E ++ P).set i3 b3)).2 aad body =
        aeadTagVal NK.2 aad body := by
      have := congrArg (ofB 256) hcon.symm
      rw [htagB, ofB_encodeBytes_pow _ _ (by
            calc aeadTagVal _ aad body < 2 ^ 128 := aeadTagVal_lt _ _ _
            _ ≤ 2 ^ (8 * 16) := by norm_num),
          ofB_encodeBytes_pow _ _ (by
            calc aeadTagVal NK.2 aad body < 2 ^ 128 := aeadTagVal_lt _ _ _
            _ ≤ 2 ^ (8 * 16) := by norm_num)] at this
      exact this
    rw [aeadTagVal, aeadTagVal] at hval1
    rw [hNK] at hval1
    simp only [deriveNK] at hval1
    rw [ofB_encodeBytes_pow _ _ (by rw [keyVal]; exact expandVal_lt _ _ _),
        ofB_encodeBytes_pow _ _ (by rw [keyVal]; exact expandVal_lt _ _ _)]
      at hval1
    exact tagVal_ne_key _ _ _ 9 (by norm_num) hkne hval1

set_option maxRecDepth 40000 in
/-- C1 witness: the round-trip and the three single-byte tampers
evaluated on the suite (0x20, 1, 1) with concrete keys, plaintext, aad
and info. -/
theorem claim_C1_roundtrip_and_tamper_witness :
    hpke_dec HPKE_MODE_BASE ⟨0x20, 1, 1⟩ none 0 none [] [] (some 5)
      [135, 0, 0, 0, 0, 0, 0, 0, 0, 0, 0, 0, 0, 0, 0, 0,
       0, 0, 0, 0, 0, 0, 0, 0, 0, 0, 0, 0, 0, 0, 0, 0]
      [46, 48, 230, 112, 214, 194, 97, 148, 186, 243, 177, 30, 172, 229, 158,
       237, 214, 152] [1, 2] [3] 1024 = .ok [104, 105] ∧
    hpke_dec HPKE_MODE_BASE ⟨0x20, 1, 1⟩ none 0 none [] [] (some 5)
      [135, 0, 0, 0, 0, 0, 0, 0, 0, 0, 0, 0, 0, 0, 0, 0,
       0, 0, 0, 0, 0, 0, 0, 0, 0, 0, 0, 0, 0, 0, 0, 0]
      (List.set [46, 48, 230, 112, 214, 194, 97, 148, 186, 243, 177, 30, 172,
        229, 158, 237, 214, 152] 0 47) [1, 2] [3] 1024 = .error .badTag ∧
    hpke_dec HPKE_MODE_BASE ⟨0x20, 1, 1⟩ none 0 none [] [] (some 5)
      [135, 0, 0, 0, 0, 0, 0, 0, 0, 0, 0, 0, 0, 0, 0, 0,
       0, 0, 0, 0, 0, 0, 0, 0, 0, 0, 0, 0, 0, 0, 0, 0]
      [46, 48, 230, 112, 214, 194, 97, 148, 186, 243, 177, 30, 172, 229, 158,
       237, 214, 152] (List.set [1, 2] 0 9) [3] 1024 = .error .badTag ∧
    hpke_dec HPKE_MODE_BASE ⟨0x20, 1, 1⟩ none 0 none [] [] (some 5)
      (List.set [135, 0, 0, 0, 0, 0, 0, 0, 0, 0, 0, 0, 0, 0, 0, 0,
        0, 0, 0, 0, 0, 0, 0, 0, 0, 0, 0, 0, 0, 0, 0, 0] 0 136)
      [46, 48, 230, 112, 214, 194, 97, 148, 186, 243, 177, 30, 172, 229, 158,
       237, 214, 152] [1, 2] [3] 1024 = .error .badTag :=
  claim_C1_roundtrip_and_tamper ⟨0x20, 1, 1⟩ (by decide) 5 7 [104, 105] [1, 2]
    [3] (by decide) (by decide) (by decide) (by decide)
    [99, 0, 0, 0, 0, 0, 0, 0, 0, 0, 0, 0, 0, 0, 0, 0,
     0, 0, 0, 0, 0, 0, 0, 0, 0, 0, 0, 0, 0, 0, 0, 0]
    [135, 0, 0, 0, 0, 0, 0, 0, 0, 0, 0, 0, 0, 0, 0, 0,
     0, 0, 0, 0, 0, 0, 0, 0, 0, 0, 0, 0, 0, 0, 0, 0]
    [46, 48, 230, 112, 214, 194, 97, 148, 186, 243, 177, 30, 172, 229, 158,
     237, 214, 152]
    (by decide) rfl
    0 47 (by decide) (by decide) (by decide)
    0 9 (by decide) (by decide) (by decide)
    0 136 (by decide) (by decide) (by decide)

/-- C9 (amended): for the PSK modes the gate hpke_psk_check accepts
exactly when the pskid pointer is non-NULL, psklen is nonzero and the
psk pointer is non-NULL — an empty pskid string is accepted, contrary to
the claim — for Base and Auth modes the psk parameters impose no
constraint, and whenever the gate rejects, both hpke_enc and hpke_dec
return its error before any processing. -/
theorem claim_C9_psk_preconditions (mode : Nat) (suite : hpke_suite_t)
    (pskid psk : Option (List Nat)) (psklen : Nat)
    (pub priv clear aad info : List Nat) (skE : Nat)
    (senderpubCap cipherCap : Nat) (evppriv : Option Nat)
    (enc cipher : List Nat) (clearCap : Nat)
    (hm : mode = HPKE_MODE_PSK ∨ mode = HPKE_MODE_PSKAUTH) :
    (hpke_psk_check mode pskid psklen psk = 1 ↔
      pskid ≠ none ∧ psklen ≠ 0 ∧ psk ≠ none) ∧
    hpke_psk_check HPKE_MODE_BASE pskid psklen psk = 1 ∧
    hpke_psk_check HPKE_MODE_AUTH pskid psklen psk = 1 ∧
    (hpke_psk_check mode pskid psklen psk ≠ 1 →
      hpke_enc mode suite pskid psklen psk pub priv clear aad info skE
        senderpubCap cipherCap = .error .pskErr ∧
      hpke_dec mode suite pskid psklen psk pub priv evppriv enc cipher aad
        info clearCap = .error .pskErr) := by
  have hmc : hpke_mode_check mode = 1 := by
    rcases hm with h | h <;> subst h <;> decide
  refine ⟨?_, ?_, ?_, ?_⟩
  · rcases hm with h | h <;> subst h <;>
      simp [hpke_psk_check, HPKE_MODE_PSK, HPKE_MODE_PSKAUTH, HPKE_MODE_BASE,
        HPKE_MODE_AUTH] <;>
      by_cases h1 : pskid = none <;> by_cases h2 : psklen = 0 <;>
      by_cases h3 : psk = none <;> simp [h1, h2, h3]
  · simp [hpke_psk_check, HPKE_MODE_BASE]
  · simp [hpke_psk_check, HPKE_MODE_AUTH, HPKE_MODE_BASE]
  · intro hfail
    constructor
    · rw [hpke_enc]
      rw [if_neg (by omega)]
      rw [if_pos hfail]
    · rw [hpke_dec.eq_def]
      rw [if_neg (by omega)]
      rw [if_pos hfail]

/-- C9 witness: the amended statement evaluated at mode PSK with a
NULL psk. -/
theorem claim_C9_psk_preconditions_witness :
    (hpke_psk_check HPKE_MODE_PSK (some [97]) 0 none = 1 ↔
      (some [97] : Option (List Nat)) ≠ none ∧ (0 : Nat) ≠ 0 ∧
      (none : Option (List Nat)) ≠ none) ∧
    hpke_psk_check HPKE_MODE_BASE (some [97]) 0 none = 1 ∧
    hpke_psk_check HPKE_MODE_AUTH (some [97]) 0 none = 1 ∧
    (hpke_psk_check HPKE_MODE_PSK (some [97]) 0 none ≠ 1 →
      hpke_enc HPKE_MODE_PSK ⟨0x20, 1, 1⟩ (some [97]) 0 none [9] [] [8] [7] [6]
        5 1024 1024 = .error .pskErr ∧
      hpke_dec HPKE_MODE_PSK ⟨0x20, 1, 1⟩ (some [97]) 0 none [9] [] (some 4)
        [3] [2] [7] [6] 1024 = .error .pskErr) :=
  claim_C9_psk_preconditions HPKE_MODE_PSK ⟨0x20, 1, 1⟩ (some [97]) none 0
    [9] [] [8] [7] [6] 5 1024 1024 (some 4) [3] [2] 1024 (by decide)

/-- C9 counterexample: the claim requires hpke_enc to fail whenever the
psk_id is empty, but the source only compares the pskid pointer against
NULL, so an empty pskid string together with a non-empty psk passes
hpke_psk_check and hpke_enc completes successfully. -/
theorem claim_C9_empty_pskid_accepted :
    hpke_psk_check HPKE_MODE_PSK (some []) 3 (some [1, 2, 3]) = 1 ∧
    (hpke_enc HPKE_MODE_PSK ⟨0x20, 1, 1⟩ (some []) 3 (some [1, 2, 3])
      (encodeBytes 32 (dhPub 5)) [] [104, 105] [1, 2] [3] 7 1024
      1024).toOption.isSome = true :=
  ⟨rfl, rfl⟩

end Spec2Proof
